import Mathlib

/-!
Verification development for the `perturbation_benchmarking_package` repository
(`experimenter.py` and `evaluator.py`).

The Python code is shallowly embedded: AnnData objects become structures of
lists, pandas/numpy floats become rationals (`ℚ`, an exact idealisation of
IEEE floats: the code performs no operation whose rounding behaviour any
claim depends on), and seeded numpy random sampling is modelled by an
uninterpreted deterministic choice function (numpy's seeded generators are
deterministic functions of the seed and their arguments; the properties the
code relies on — a sample without replacement has the requested length, has
no duplicates, and is drawn from the population — appear as hypotheses).
Fallible Python code (raising) is embedded in `Except String`.
-/

namespace PerturbationBenchmarking

/-- Splitting a character list at commas (helper for `splitComma`). -/
def splitCommaAux : List Char → List Char → List String
  | acc, [] => [String.mk acc.reverse]
  | acc, c :: cs =>
    if c = ',' then String.mk acc.reverse :: splitCommaAux [] cs
    else splitCommaAux (c :: acc) cs

/-- Python `p.split(",")`: split at every comma, keeping empty pieces
(`"".split(",") == [""]`, `"a,".split(",") == ["a", ""]`). -/
def splitComma (s : String) : List String := splitCommaAux [] s.data

/-- Python `list(dict.fromkeys(x))` (the `get_unique_keep_order` lambda of
`_splitDataHelper`), with an accumulator of already-seen elements:
deduplicate, keeping the first occurrence of each element, in order. -/
def uniqueKeepOrderAux : List String → List String → List String
  | _, [] => []
  | seen, x :: xs =>
    if seen.contains x then uniqueKeepOrderAux seen xs
    else x :: uniqueKeepOrderAux (x :: seen) xs

/-- Python `list(dict.fromkeys(x))`. -/
def uniqueKeepOrder (l : List String) : List String := uniqueKeepOrderAux [] l

theorem mem_uniqueKeepOrderAux (l : List String) :
    ∀ (seen : List String) (a : String),
      a ∈ uniqueKeepOrderAux seen l ↔ a ∈ l ∧ a ∉ seen := by
  induction l with
  | nil => intro seen a; simp [uniqueKeepOrderAux]
  | cons x xs ih =>
    intro seen a
    rw [uniqueKeepOrderAux]
    by_cases hx : seen.contains x = true
    · have hxs : x ∈ seen := by simpa using hx
      rw [if_pos hx, ih]
      constructor
      · rintro ⟨h1, h2⟩
        exact ⟨List.mem_cons_of_mem x h1, h2⟩
      · rintro ⟨h1, h2⟩
        rcases List.mem_cons.mp h1 with h | h
        · subst h; exact absurd hxs h2
        · exact ⟨h, h2⟩
    · have hxs : x ∉ seen := by simpa using hx
      rw [if_neg hx]
      constructor
      · intro h
        rcases List.mem_cons.mp h with h | h
        · subst h; exact ⟨List.mem_cons_self a xs, hxs⟩
        · obtain ⟨h1, h2⟩ := (ih (x :: seen) a).mp h
          exact ⟨List.mem_cons_of_mem x h1, fun hc => h2 (List.mem_cons_of_mem x hc)⟩
      · rintro ⟨h1, h2⟩
        by_cases hax : a = x
        · subst hax; exact List.mem_cons_self a _
        · rcases List.mem_cons.mp h1 with h | h
          · exact absurd h hax
          · refine List.mem_cons_of_mem x ((ih (x :: seen) a).mpr ⟨h, ?_⟩)
            intro hc
            rcases List.mem_cons.mp hc with h3 | h3
            · exact hax h3
            · exact h2 h3

theorem mem_uniqueKeepOrder (l : List String) (a : String) :
    a ∈ uniqueKeepOrder l ↔ a ∈ l := by
  unfold uniqueKeepOrder
  rw [mem_uniqueKeepOrderAux]
  simp

theorem nodup_uniqueKeepOrderAux (l : List String) :
    ∀ seen : List String, (uniqueKeepOrderAux seen l).Nodup := by
  induction l with
  | nil => intro seen; simp [uniqueKeepOrderAux]
  | cons x xs ih =>
    intro seen
    rw [uniqueKeepOrderAux]
    by_cases hx : seen.contains x
    · rw [if_pos hx]; exact ih seen
    · rw [if_neg hx]
      refine List.nodup_cons.mpr ⟨?_, ih (x :: seen)⟩
      rw [mem_uniqueKeepOrderAux]
      rintro ⟨_, h2⟩
      exact h2 (List.mem_cons_self x seen)

theorem nodup_uniqueKeepOrder (l : List String) : (uniqueKeepOrder l).Nodup :=
  nodup_uniqueKeepOrderAux l []

/-- Python 3 `round` on an exact value: round-half-to-even. -/
def pyRound (q : ℚ) : ℤ :=
  if q - ⌊q⌋ < 1/2 then ⌊q⌋
  else if 1/2 < q - ⌊q⌋ then ⌊q⌋ + 1
  else if Even ⌊q⌋ then ⌊q⌋ else ⌊q⌋ + 1

/-- One observation (row) of an AnnData object used by the splitting code:
its obs name (row label) and its `.obs["perturbation"]` entry. -/
structure Obs where
  name : String
  perturbation : String
deriving DecidableEq, Repr

/-- The parts of an AnnData object that the train/test split reads and
writes: the observations, `.var_names`, and the two `.uns` gene sets
(`perturbed_and_measured_genes`, `perturbed_but_not_measured_genes`).
Python keeps the `.uns` entries as sets; they are embedded as lists whose
membership carries the content (the splitting code's comment says exactly
that: order of sets may change but content will not). -/
structure SplitData where
  obs : List Obs
  varNames : List String
  pamGenes : List String
  pbnmGenes : List String
deriving DecidableEq, Repr

/-- `allowedRegulators = [p for p in allowedRegulators if p in
adata.uns["perturbed_and_measured_genes"]]` (line 555 of experimenter.py). -/
def filteredAllowedRegulators (adata : SplitData) (allowedRegulators : List String) :
    List String :=
  allowedRegulators.filter (fun p => adata.pamGenes.contains p)

/-- `all(g in allowedRegulators for g in p.split(","))` with the filtered
`allowedRegulators` of line 555: the test-set eligibility predicate. -/
def isEligible (adata : SplitData) (allowedRegulators : List String) (p : String) : Bool :=
  (splitComma p).all (fun g => (filteredAllowedRegulators adata allowedRegulators).contains g)

/-- `testSetEligible` after `get_unique_keep_order` (lines 556, 559). -/
def testSetEligible (adata : SplitData) (allowedRegulators : List String) : List String :=
  uniqueKeepOrder ((adata.obs.map Obs.perturbation).filter (isEligible adata allowedRegulators))

/-- `testSetIneligible` after `get_unique_keep_order` (lines 557, 560). -/
def testSetIneligible (adata : SplitData) (allowedRegulators : List String) : List String :=
  uniqueKeepOrder
    ((adata.obs.map Obs.perturbation).filter (fun p => ! isEligible adata allowedRegulators p))

/-- `total_num_perts = len(testSetEligible) + len(testSetIneligible)` (line 561). -/
def totalNumPerts (adata : SplitData) (allowedRegulators : List String) : ℕ :=
  (testSetEligible adata allowedRegulators).length +
    (testSetIneligible adata allowedRegulators).length

/-- Lines 562-579 of `_splitDataHelper`, interventional case: decide which
unique perturbations go to the test set and which to the training set.
Returns `(testSetPerturbations, trainingSetPerturbations)` (as ordered lists,
just before the code turns them into sets at lines 581-582).
`rngChoice seed population size` models
`np.random.default_rng(seed=data_split_seed).choice(population, size,
replace=False)` (a deterministic function of its arguments).
`int(np.ceil(x))` truncates toward zero, which for the nonnegative value
in the branch where it is evaluated equals `Int.toNat ∘ Int.ceil`. -/
def interventionalPertSets (rngChoice : ℕ → List String → ℕ → List String)
    (adata : SplitData) (allowedRegulators : List String)
    (desiredHeldoutFraction : ℚ) (seed : ℕ) : List String × List String :=
  let e := (testSetEligible adata allowedRegulators).length
  let N := totalNumPerts adata allowedRegulators
  let eligibleHeldoutFraction : ℚ := (e : ℚ) / (N : ℚ)
  if eligibleHeldoutFraction < desiredHeldoutFraction then
    (testSetEligible adata allowedRegulators, testSetIneligible adata allowedRegulators)
  else if eligibleHeldoutFraction = desiredHeldoutFraction then
    (testSetEligible adata allowedRegulators, testSetIneligible adata allowedRegulators)
  else
    let numExcessTestEligible : ℕ :=
      (⌈(eligibleHeldoutFraction - desiredHeldoutFraction) * (N : ℚ)⌉).toNat
    let excessTestEligible :=
      rngChoice seed (testSetEligible adata allowedRegulators) numExcessTestEligible
    ((testSetEligible adata allowedRegulators).filter
        (fun p => ! excessTestEligible.contains p),
     testSetIneligible adata allowedRegulators ++ excessTestEligible)

/-- Lines 583-588 (and their twins 602-609): restrict an AnnData to the
observations whose perturbation lies in the given set, and intersect the two
`.uns` gene sets with that set of perturbations. -/
def restrictToPerts (adata : SplitData) (perts : List String) : SplitData :=
  { obs := adata.obs.filter (fun o => perts.contains o.perturbation)
    varNames := adata.varNames
    pamGenes := adata.pamGenes.filter (fun g => perts.contains g)
    pbnmGenes := adata.pbnmGenes.filter (fun g => perts.contains g) }

/-- Intersect only the `.uns` sets (used by the simple split, where the
observations were already selected by name). -/
def unsIntersect (adata : SplitData) (perts : List String) : SplitData :=
  { adata with
    pamGenes := adata.pamGenes.filter (fun g => perts.contains g)
    pbnmGenes := adata.pbnmGenes.filter (fun g => perts.contains g) }

/-- AnnData label indexing `adata[names, :]` on the observation axis: the
rows named by `names`, in the order of `names` (obs names are assumed
unique, as AnnData label indexing expects; theorems that rely on this take
the uniqueness as a hypothesis). -/
def findByNames (obs : List Obs) (names : List String) : List Obs :=
  names.filterMap (fun nm => obs.find? (fun o => o.name == nm))

/-- `_splitDataHelper` (experimenter.py lines 514-619). Python exceptions
(the `ZeroDivisionError` from `len(testSetEligible)/(0.0+total_num_perts)`
on an empty dataset, the `ValueError` that `np.random.choice` raises for an
out-of-range sample size, `NotImplementedError`, and the final
`ValueError`) become `Except.error`. `legacyChoice seed population size`
models `np.random.seed(seed)` followed by
`np.random.choice(a=population, size=size, replace=False)`. The `verbose`
printing is pure I/O and is not modelled. -/
def splitDataHelper (rngChoice legacyChoice : ℕ → List String → ℕ → List String)
    (adata : SplitData) (allowedRegulators : List String)
    (desiredHeldoutFraction : ℚ) (typeOfSplit : String)
    (dataSplitSeed : Option ℕ) : Except String (SplitData × SplitData) :=
  let seed := dataSplitSeed.getD 0
  if typeOfSplit = "interventional" then
    if totalNumPerts adata allowedRegulators = 0 then
      .error "ZeroDivisionError: float division by zero"
    else
      let sets :=
        interventionalPertSets rngChoice adata allowedRegulators desiredHeldoutFraction seed
      .ok (restrictToPerts adata sets.2, restrictToPerts adata sets.1)
  else if typeOfSplit = "simple" then
    let n := adata.obs.length
    let size : ℤ := pyRound ((n : ℚ) * (1 - desiredHeldoutFraction))
    if size < 0 ∨ (n : ℤ) < size then
      .error "ValueError: invalid sample size for np.random.choice with replace=False"
    else
      let trainObsNames := legacyChoice seed (adata.obs.map Obs.name) size.toNat
      let testObsNames :=
        (adata.obs.map Obs.name).filter (fun nm => ! trainObsNames.contains nm)
      let adataTrain := { adata with obs := findByNames adata.obs trainObsNames }
      let adataHeldout := { adata with obs := findByNames adata.obs testObsNames }
      let trainingSetPerturbations := uniqueKeepOrder (adataTrain.obs.map Obs.perturbation)
      let testSetPerturbations := uniqueKeepOrder (adataHeldout.obs.map Obs.perturbation)
      .ok (unsIntersect adataTrain trainingSetPerturbations,
           unsIntersect adataHeldout testSetPerturbations)
  else if typeOfSplit = "genetic_interaction" then
    .error "NotImplementedError: Sorry, we are still working on this feature."
  else
    .error "ValueError: type_of_split must be simple or interventional or genetic_interaction"

/-- `splitDataWrapper` (experimenter.py lines 459-512). A network is its
name together with the result of `get_all_regulators()` (a set of genes,
embedded as a list carrying its membership). `set.union(*[...])` and
`set.intersection(*[...])` raise a `TypeError` when the networks dict is
empty, which becomes `Except.error`. -/
def splitDataWrapper (rngChoice legacyChoice : ℕ → List String → ℕ → List String)
    (perturbedExpressionData : SplitData) (desiredHeldoutFraction : ℚ)
    (networks : List (String × List String))
    (allowedRegulatorsVsNetworkRegulators : String) (typeOfSplit : String)
    (dataSplitSeed : Option ℕ) : Except String (SplitData × SplitData) :=
  let seed := dataSplitSeed.getD 0
  if allowedRegulatorsVsNetworkRegulators = "all" then
    splitDataHelper rngChoice legacyChoice perturbedExpressionData
      perturbedExpressionData.varNames desiredHeldoutFraction typeOfSplit (some seed)
  else if allowedRegulatorsVsNetworkRegulators = "union" then
    if networks.isEmpty then .error "TypeError: set.union needs at least one set"
    else
      splitDataHelper rngChoice legacyChoice perturbedExpressionData
        (perturbedExpressionData.varNames.filter
          (fun g => networks.any (fun nw => nw.2.contains g)))
        desiredHeldoutFraction typeOfSplit (some seed)
  else if allowedRegulatorsVsNetworkRegulators = "intersection" then
    if networks.isEmpty then .error "TypeError: set.intersection needs at least one set"
    else
      splitDataHelper rngChoice legacyChoice perturbedExpressionData
        (perturbedExpressionData.varNames.filter
          (fun g => networks.all (fun nw => nw.2.contains g)))
        desiredHeldoutFraction typeOfSplit (some seed)
  else
    .error "ValueError: allowedRegulators currently only allows union or all or intersection"

/-- Number of unique perturbations present among the observations of a
(split of a) dataset. -/
def countUniquePerts (d : SplitData) : ℕ :=
  (uniqueKeepOrder (d.obs.map Obs.perturbation)).length

theorem mem_testSetEligible (adata : SplitData) (ar : List String) (p : String) :
    p ∈ testSetEligible adata ar ↔
      p ∈ adata.obs.map Obs.perturbation ∧ isEligible adata ar p = true := by
  unfold testSetEligible
  rw [mem_uniqueKeepOrder, List.mem_filter]

theorem mem_testSetIneligible (adata : SplitData) (ar : List String) (p : String) :
    p ∈ testSetIneligible adata ar ↔
      p ∈ adata.obs.map Obs.perturbation ∧ isEligible adata ar p = false := by
  unfold testSetIneligible
  rw [mem_uniqueKeepOrder, List.mem_filter, Bool.not_eq_true']

/-- The `eligible_heldout_fraction` of line 562. -/
def eligibleHeldoutFraction (adata : SplitData) (ar : List String) : ℚ :=
  ((testSetEligible adata ar).length : ℚ) / (totalNumPerts adata ar : ℚ)

/-- The `numExcessTestEligible` of line 573 (as a natural number; the value
is nonnegative whenever it is evaluated). -/
def numExcessTestEligible (adata : SplitData) (ar : List String) (f : ℚ) : ℕ :=
  (⌈(eligibleHeldoutFraction adata ar - f) * (totalNumPerts adata ar : ℚ)⌉).toNat

theorem interventionalPertSets_of_le (rngChoice : ℕ → List String → ℕ → List String)
    (adata : SplitData) (ar : List String) (f : ℚ) (seed : ℕ)
    (h : eligibleHeldoutFraction adata ar ≤ f) :
    interventionalPertSets rngChoice adata ar f seed =
      (testSetEligible adata ar, testSetIneligible adata ar) := by
  rcases lt_or_eq_of_le h with h1 | h1 <;>
    simp [interventionalPertSets, eligibleHeldoutFraction, h1] at h1 ⊢ <;>
    simp [h1]

theorem interventionalPertSets_of_gt (rngChoice : ℕ → List String → ℕ → List String)
    (adata : SplitData) (ar : List String) (f : ℚ) (seed : ℕ)
    (h : f < eligibleHeldoutFraction adata ar) :
    interventionalPertSets rngChoice adata ar f seed =
      ((testSetEligible adata ar).filter
        (fun p => ! (rngChoice seed (testSetEligible adata ar)
          (numExcessTestEligible adata ar f)).contains p),
       testSetIneligible adata ar ++
         rngChoice seed (testSetEligible adata ar) (numExcessTestEligible adata ar f)) := by
  have h1 : ¬ eligibleHeldoutFraction adata ar < f := not_lt_of_gt h
  have h2 : ¬ eligibleHeldoutFraction adata ar = f := ne_of_gt h
  simp only [interventionalPertSets, eligibleHeldoutFraction, numExcessTestEligible] at h1 h2 ⊢
  rw [if_neg h1, if_neg h2]

theorem testPerts_subset_eligible (rngChoice : ℕ → List String → ℕ → List String)
    (adata : SplitData) (ar : List String) (f : ℚ) (seed : ℕ) (p : String)
    (hp : p ∈ (interventionalPertSets rngChoice adata ar f seed).1) :
    p ∈ testSetEligible adata ar := by
  by_cases h : eligibleHeldoutFraction adata ar ≤ f
  · rw [interventionalPertSets_of_le rngChoice adata ar f seed h] at hp
    exact hp
  · rw [interventionalPertSets_of_gt rngChoice adata ar f seed (lt_of_not_ge h)] at hp
    exact (List.mem_filter.mp hp).1

/-- Membership in the test-vs-training perturbation sets is exhaustive and
exclusive for every perturbation that occurs among the observations. -/
theorem interventionalPertSets_mem_iff (rngChoice : ℕ → List String → ℕ → List String)
    (adata : SplitData) (ar : List String) (f : ℚ) (seed : ℕ) (p : String)
    (hp : p ∈ adata.obs.map Obs.perturbation) :
    p ∈ (interventionalPertSets rngChoice adata ar f seed).1 ↔
      p ∉ (interventionalPertSets rngChoice adata ar f seed).2 := by
  have hE : p ∈ testSetEligible adata ar ↔ isEligible adata ar p = true := by
    rw [mem_testSetEligible]; exact ⟨fun h => h.2, fun h => ⟨hp, h⟩⟩
  have hI : p ∈ testSetIneligible adata ar ↔ isEligible adata ar p = false := by
    rw [mem_testSetIneligible]; exact ⟨fun h => h.2, fun h => ⟨hp, h⟩⟩
  by_cases h : eligibleHeldoutFraction adata ar ≤ f
  · rw [interventionalPertSets_of_le rngChoice adata ar f seed h]
    rw [hE, hI]
    cases hel : isEligible adata ar p <;> simp [hel]
  · rw [interventionalPertSets_of_gt rngChoice adata ar f seed (lt_of_not_ge h)]
    simp only [List.mem_filter, List.mem_append, hE, hI, Bool.not_eq_true,
      Bool.not_eq_true']
    cases hel : isEligible adata ar p with
    | false => simp [hel]
    | true =>
      simp only [hel, true_and, Bool.true_eq_false, false_or, iff_false,
        false_iff, not_or, not_not]
      cases hx : (rngChoice seed (testSetEligible adata ar)
          (numExcessTestEligible adata ar f)).contains p <;> simp_all

/-- Unpack a successful interventional run of `splitDataHelper`. -/
theorem splitDataHelper_interventional_ok
    (rngChoice legacyChoice : ℕ → List String → ℕ → List String)
    (adata : SplitData) (ar : List String) (f : ℚ) (s : Option ℕ)
    (train heldout : SplitData)
    (hok : splitDataHelper rngChoice legacyChoice adata ar f "interventional" s =
      .ok (train, heldout)) :
    totalNumPerts adata ar ≠ 0 ∧
      train = restrictToPerts adata
        (interventionalPertSets rngChoice adata ar f (s.getD 0)).2 ∧
      heldout = restrictToPerts adata
        (interventionalPertSets rngChoice adata ar f (s.getD 0)).1 := by
  unfold splitDataHelper at hok
  simp only [reduceIte] at hok
  split at hok
  · exact absurd hok (by simp)
  · rename_i hN
    have h := Except.ok.inj hok
    have h1 := congrArg Prod.fst h
    have h2 := congrArg Prod.snd h
    exact ⟨hN, h1.symm, h2.symm⟩

/-- A successful interventional run, packaged as an equation (converse of
`splitDataHelper_interventional_ok`). -/
theorem splitDataHelper_interventional_eq
    (rngChoice legacyChoice : ℕ → List String → ℕ → List String)
    (adata : SplitData) (ar : List String) (f : ℚ) (s : Option ℕ)
    (hN : totalNumPerts adata ar ≠ 0) :
    splitDataHelper rngChoice legacyChoice adata ar f "interventional" s =
      .ok (restrictToPerts adata (interventionalPertSets rngChoice adata ar f (s.getD 0)).2,
           restrictToPerts adata (interventionalPertSets rngChoice adata ar f (s.getD 0)).1) := by
  unfold splitDataHelper
  simp [hN]

/-- The eligible heldout fraction is a fraction: it never exceeds 1. -/
theorem eligibleHeldoutFraction_le_one (adata : SplitData) (ar : List String) :
    eligibleHeldoutFraction adata ar ≤ 1 := by
  unfold eligibleHeldoutFraction totalNumPerts
  rcases Nat.eq_zero_or_pos
      ((testSetEligible adata ar).length + (testSetIneligible adata ar).length) with h | h
  · rw [h]; simp
  · apply div_le_one_of_le₀
    · exact_mod_cast Nat.le_add_right _ _
    · positivity

/-- Claim C2: in the interventional split, every observation placed in the
heldout set has a perturbation all of whose comma-separated gene names are
both in `allowedRegulators` and in
`adata.uns["perturbed_and_measured_genes"]`; every observation whose
perturbation fails this eligibility test is placed in the training set and
never in the heldout set. -/
theorem claimC2 (rngChoice legacyChoice : ℕ → List String → ℕ → List String)
    (adata : SplitData) (ar : List String) (f : ℚ) (s : Option ℕ)
    (train heldout : SplitData)
    (hok : splitDataHelper rngChoice legacyChoice adata ar f "interventional" s =
      .ok (train, heldout)) :
    ∀ o ∈ adata.obs,
      (o ∈ heldout.obs → ∀ g ∈ splitComma o.perturbation,
        g ∈ ar ∧ g ∈ adata.pamGenes) ∧
      (¬ (∀ g ∈ splitComma o.perturbation, g ∈ ar ∧ g ∈ adata.pamGenes) →
        o ∈ train.obs ∧ o ∉ heldout.obs) := by
  obtain ⟨hN, htrain, hheld⟩ :=
    splitDataHelper_interventional_ok rngChoice legacyChoice adata ar f s train heldout hok
  have heligiff : ∀ p, isEligible adata ar p = true ↔
      ∀ g ∈ splitComma p, g ∈ ar ∧ g ∈ adata.pamGenes := by
    intro p
    unfold isEligible filteredAllowedRegulators
    simp [List.all_eq_true, List.mem_filter]
  intro o ho
  have hpertmem : o.perturbation ∈ adata.obs.map Obs.perturbation :=
    List.mem_map_of_mem Obs.perturbation ho
  constructor
  · intro hmemh g hg
    rw [hheld] at hmemh
    unfold restrictToPerts at hmemh
    have hcont := (List.mem_filter.mp hmemh).2
    have hpmem : o.perturbation ∈ (interventionalPertSets rngChoice adata ar f (s.getD 0)).1 := by
      simpa using hcont
    have helig := (mem_testSetEligible adata ar o.perturbation).mp
      (testPerts_subset_eligible rngChoice adata ar f (s.getD 0) o.perturbation hpmem)
    exact (heligiff o.perturbation).mp helig.2 g hg
  · intro hne
    have helig : isEligible adata ar o.perturbation = false := by
      cases h : isEligible adata ar o.perturbation
      · rfl
      · exact absurd ((heligiff o.perturbation).mp h) hne
    have hinel : o.perturbation ∈ testSetIneligible adata ar :=
      (mem_testSetIneligible adata ar o.perturbation).mpr ⟨hpertmem, helig⟩
    have hnotelig : o.perturbation ∉ testSetEligible adata ar := by
      intro hmem
      rw [mem_testSetEligible] at hmem
      rw [hmem.2] at helig
      exact Bool.true_eq_false.mp helig
    have hmem2 : o.perturbation ∈ (interventionalPertSets rngChoice adata ar f (s.getD 0)).2 := by
      by_contra hnot
      exact hnotelig (testPerts_subset_eligible rngChoice adata ar f (s.getD 0) o.perturbation
        (((interventionalPertSets_mem_iff rngChoice adata ar f (s.getD 0)
          o.perturbation hpertmem).mpr hnot)))
    constructor
    · rw [htrain]
      unfold restrictToPerts
      refine List.mem_filter.mpr ⟨ho, ?_⟩
      simpa using hmem2
    · intro hmemh
      rw [hheld] at hmemh
      unfold restrictToPerts at hmemh
      have hcont := (List.mem_filter.mp hmemh).2
      have hpmem : o.perturbation ∈
          (interventionalPertSets rngChoice adata ar f (s.getD 0)).1 := by
        simpa using hcont
      exact hnotelig (testPerts_subset_eligible rngChoice adata ar f (s.getD 0)
        o.perturbation hpmem)

theorem claimC2_witness :
    ((⟨"c2", "GENE2"⟩ : Obs) ∈
        (SplitData.mk [⟨"c2", "GENE2"⟩] ["GENE1", "GENE2"] ["GENE2"] []).obs →
      ∀ g ∈ splitComma (Obs.mk "c2" "GENE2").perturbation,
        g ∈ ["GENE1", "GENE2"] ∧ g ∈ ["GENE2"]) ∧
    (¬ (∀ g ∈ splitComma (Obs.mk "c2" "GENE2").perturbation,
          g ∈ ["GENE1", "GENE2"] ∧ g ∈ ["GENE2"]) →
      (⟨"c2", "GENE2"⟩ : Obs) ∈
        (SplitData.mk [⟨"c1", "GENE1"⟩] ["GENE1", "GENE2"] [] []).obs ∧
      (⟨"c2", "GENE2"⟩ : Obs) ∉
        (SplitData.mk [⟨"c2", "GENE2"⟩] ["GENE1", "GENE2"] ["GENE2"] []).obs) := by
  have hok : splitDataHelper (fun _ xs n => xs.take n) (fun _ xs n => xs.take n)
      ⟨[⟨"c1", "GENE1"⟩, ⟨"c2", "GENE2"⟩], ["GENE1", "GENE2"], ["GENE2"], []⟩
      ["GENE1", "GENE2"] 1 "interventional" none =
      .ok (⟨[⟨"c1", "GENE1"⟩], ["GENE1", "GENE2"], [], []⟩,
           ⟨[⟨"c2", "GENE2"⟩], ["GENE1", "GENE2"], ["GENE2"], []⟩) := by
    rw [splitDataHelper_interventional_eq _ _ _ _ _ _ (by decide),
      interventionalPertSets_of_le _ _ _ _ _ (eligibleHeldoutFraction_le_one _ _)]
    exact congrArg Except.ok (by decide)
  exact claimC2 _ _ _ _ _ _ _ _ hok ⟨"c2", "GENE2"⟩ (by decide)

theorem contains_true_iff (l : List String) (a : String) :
    l.contains a = true ↔ a ∈ l := by simp

theorem isEligible_congr (adata : SplitData) (ar1 ar2 : List String)
    (h : ∀ g, g ∈ ar1 ↔ g ∈ ar2) :
    isEligible adata ar1 = isEligible adata ar2 := by
  funext p
  rw [Bool.eq_iff_iff]
  unfold isEligible filteredAllowedRegulators
  simp only [List.all_eq_true]
  constructor <;>
    · intro hall g hg
      have h2 := hall g hg
      rw [contains_true_iff, List.mem_filter] at h2 ⊢
      refine ⟨?_, h2.2⟩
      have h3 := h g
      tauto

theorem testSetEligible_congr (adata : SplitData) (ar1 ar2 : List String)
    (h : ∀ g, g ∈ ar1 ↔ g ∈ ar2) :
    testSetEligible adata ar1 = testSetEligible adata ar2 := by
  unfold testSetEligible
  rw [isEligible_congr adata ar1 ar2 h]

theorem testSetIneligible_congr (adata : SplitData) (ar1 ar2 : List String)
    (h : ∀ g, g ∈ ar1 ↔ g ∈ ar2) :
    testSetIneligible adata ar1 = testSetIneligible adata ar2 := by
  unfold testSetIneligible
  rw [isEligible_congr adata ar1 ar2 h]

/-- Claim C4: the split is deterministic. The embedded functions are pure,
so equal arguments give equal results by definition; the two ways the Python
code could be nondeterministic are (a) `allowedRegulators` reaches
`_splitDataHelper` as a Python `set`, whose iteration order is arbitrary
(it varies with `PYTHONHASHSEED`), and (b) `data_split_seed=None`. This
theorem settles both: the helper's output depends only on the membership of
`allowedRegulators`, never on its iteration order (the code uses the list
built from the set only through membership tests; the re-deduplicated
`allowedRegulators` of line 558 is never used again), and a `None` seed is
treated as seed 0 by both `splitDataWrapper` and `_splitDataHelper`. -/
theorem claimC4 (rngChoice legacyChoice : ℕ → List String → ℕ → List String)
    (adata : SplitData) (ar1 ar2 : List String) (f : ℚ) (t : String) (s : Option ℕ)
    (networks : List (String × List String)) (mode : String) :
    ((∀ g, g ∈ ar1 ↔ g ∈ ar2) →
      splitDataHelper rngChoice legacyChoice adata ar1 f t s =
        splitDataHelper rngChoice legacyChoice adata ar2 f t s) ∧
    splitDataWrapper rngChoice legacyChoice adata f networks mode t none =
      splitDataWrapper rngChoice legacyChoice adata f networks mode t (some 0) ∧
    splitDataHelper rngChoice legacyChoice adata ar1 f t none =
      splitDataHelper rngChoice legacyChoice adata ar1 f t (some 0) := by
  refine ⟨?_, rfl, rfl⟩
  intro h
  have hsets : ∀ seed, interventionalPertSets rngChoice adata ar1 f seed =
      interventionalPertSets rngChoice adata ar2 f seed := by
    intro seed
    unfold interventionalPertSets totalNumPerts
    rw [testSetEligible_congr adata ar1 ar2 h, testSetIneligible_congr adata ar1 ar2 h]
  unfold splitDataHelper totalNumPerts
  simp only [hsets, testSetEligible_congr adata ar1 ar2 h,
    testSetIneligible_congr adata ar1 ar2 h]

theorem claimC4_witness :
    ((∀ g, g ∈ ["A", "B"] ↔ g ∈ ["B", "A"]) →
      splitDataHelper (fun _ xs n => xs.take n) (fun _ xs n => xs.take n)
        ⟨[⟨"c1", "A"⟩], ["A", "B"], ["A"], []⟩ ["A", "B"] (1/2) "interventional" none =
      splitDataHelper (fun _ xs n => xs.take n) (fun _ xs n => xs.take n)
        ⟨[⟨"c1", "A"⟩], ["A", "B"], ["A"], []⟩ ["B", "A"] (1/2) "interventional" none) ∧
    splitDataWrapper (fun _ xs n => xs.take n) (fun _ xs n => xs.take n)
      ⟨[⟨"c1", "A"⟩], ["A", "B"], ["A"], []⟩ (1/2) [] "all" "interventional" none =
    splitDataWrapper (fun _ xs n => xs.take n) (fun _ xs n => xs.take n)
      ⟨[⟨"c1", "A"⟩], ["A", "B"], ["A"], []⟩ (1/2) [] "all" "interventional" (some 0) ∧
    splitDataHelper (fun _ xs n => xs.take n) (fun _ xs n => xs.take n)
      ⟨[⟨"c1", "A"⟩], ["A", "B"], ["A"], []⟩ ["A", "B"] (1/2) "interventional" none =
    splitDataHelper (fun _ xs n => xs.take n) (fun _ xs n => xs.take n)
      ⟨[⟨"c1", "A"⟩], ["A", "B"], ["A"], []⟩ ["A", "B"] (1/2) "interventional" (some 0) := by
  have h := claimC4 (fun _ xs n => xs.take n) (fun _ xs n => xs.take n)
    ⟨[⟨"c1", "A"⟩], ["A", "B"], ["A"], []⟩ ["A", "B"] ["B", "A"] (1/2) "interventional"
    none [] "all"
  exact ⟨fun _ => h.1 (fun g => by constructor <;> (intro hg; simp at hg ⊢; tauto)),
    h.2.1, h.2.2⟩

theorem interventional_partition (rngChoice : ℕ → List String → ℕ → List String)
    (adata : SplitData) (ar : List String) (f : ℚ) (seed : ℕ) :
    ((restrictToPerts adata (interventionalPertSets rngChoice adata ar f seed).2).obs ++
      (restrictToPerts adata (interventionalPertSets rngChoice adata ar f seed).1).obs).Perm
      adata.obs := by
  unfold restrictToPerts
  dsimp only
  have hpoint : ∀ o ∈ adata.obs,
      ((interventionalPertSets rngChoice adata ar f seed).1.contains o.perturbation) =
        !((interventionalPertSets rngChoice adata ar f seed).2.contains o.perturbation) := by
    intro o ho
    have hmem := interventionalPertSets_mem_iff rngChoice adata ar f seed o.perturbation
      (List.mem_map_of_mem Obs.perturbation ho)
    cases hc : ((interventionalPertSets rngChoice adata ar f seed).2.contains o.perturbation)
    · rw [Bool.not_false]
      rw [contains_true_iff]
      apply hmem.mpr
      intro hm
      rw [← contains_true_iff, hc] at hm
      exact Bool.false_ne_true hm
    · rw [Bool.not_true, Bool.eq_false_iff]
      intro ht
      rw [contains_true_iff] at ht hc
      exact hmem.mp ht hc
  rw [List.filter_congr hpoint]
  exact List.filter_append_perm _ _

theorem find?_eq_some_of_mem (obs : List Obs) (hnd : (obs.map Obs.name).Nodup)
    (o : Obs) (ho : o ∈ obs) :
    obs.find? (fun x => x.name == o.name) = some o := by
  induction obs with
  | nil => cases ho
  | cons b rest ih =>
    rw [List.map_cons, List.nodup_cons] at hnd
    cases hb : (b.name == o.name)
    · have hb2 : ¬ ((fun (x : Obs) => x.name == o.name) b = true) := by simp [hb]
      rw [List.find?_cons_of_neg rest hb2]
      rcases List.mem_cons.mp ho with h | h
      · subst h; simp at hb
      · exact ih hnd.2 h
    · have hb2 : (fun (x : Obs) => x.name == o.name) b = true := hb
      rw [List.find?_cons_of_pos rest hb2]
      rcases List.mem_cons.mp ho with h | h
      · rw [h]
      · exfalso
        have hbo : b.name = o.name := by simpa using hb
        exact hnd.1 (hbo ▸ List.mem_map_of_mem Obs.name h)

theorem count_findByNames (obs : List Obs) (names : List String) (hnd : names.Nodup)
    (o : Obs) :
    (findByNames obs names).count o =
      if o.name ∈ names ∧ obs.find? (fun x => x.name == o.name) = some o then 1 else 0 := by
  induction names with
  | nil => simp [findByNames]
  | cons nm rest ih =>
    rw [List.nodup_cons] at hnd
    have ihr := ih hnd.2
    unfold findByNames at ihr ⊢
    rw [List.filterMap_cons]
    cases hf : obs.find? (fun x => x.name == nm) with
    | none =>
      rw [ihr]
      by_cases hon : o.name = nm
      · have hcond : ¬ (o.name ∈ nm :: rest ∧
            obs.find? (fun x => x.name == o.name) = some o) := by
          rintro ⟨_, hfo⟩
          rw [hon, hf] at hfo
          cases hfo
        rw [if_neg hcond, if_neg]
        rintro ⟨hmem, _⟩
        exact hnd.1 (hon ▸ hmem)
      · by_cases hintr : o.name ∈ rest ∧ obs.find? (fun x => x.name == o.name) = some o
        · rw [if_pos hintr, if_pos ⟨List.mem_cons_of_mem nm hintr.1, hintr.2⟩]
        · rw [if_neg hintr, if_neg]
          rintro ⟨hmem, hfo⟩
          rcases List.mem_cons.mp hmem with h | h
          · exact hon h
          · exact hintr ⟨h, hfo⟩
    | some b =>
      rw [List.count_cons, ihr]
      simp only [beq_iff_eq]
      have hbnm : b.name = nm := by
        have := List.find?_some hf
        simpa using this
      by_cases hbo : o = b
      · have hcond : o.name ∈ nm :: rest ∧
            obs.find? (fun x => x.name == o.name) = some o := by
          rw [hbo, hbnm]
          exact ⟨List.mem_cons_self nm rest, hbo ▸ hf⟩
        have h1 : ¬ (o.name ∈ rest ∧
            obs.find? (fun x => x.name == o.name) = some o) := by
          rintro ⟨hmem, _⟩
          rw [hbo] at hmem
          exact hnd.1 (hbnm ▸ hmem)
        have hb1 : (if b = o then (1 : ℕ) else 0) = 1 := if_pos hbo.symm
        rw [if_pos hcond, if_neg h1, hb1]
      · have hb0 : (if b = o then (1 : ℕ) else 0) = 0 := if_neg (fun h => hbo h.symm)
        rw [hb0]
        by_cases hon : o.name = nm
        · have h1 : ¬ (o.name ∈ rest ∧
              obs.find? (fun x => x.name == o.name) = some o) := by
            rintro ⟨hmem, _⟩
            exact hnd.1 (hon ▸ hmem)
          have h2 : ¬ (o.name ∈ nm :: rest ∧
              obs.find? (fun x => x.name == o.name) = some o) := by
            rintro ⟨_, hfo⟩
            rw [hon, hf] at hfo
            exact hbo (Option.some.inj hfo).symm
          rw [if_neg h1, if_neg h2]
        · by_cases hintr : o.name ∈ rest ∧
              obs.find? (fun x => x.name == o.name) = some o
          · have h2 : o.name ∈ nm :: rest ∧
                obs.find? (fun x => x.name == o.name) = some o :=
              ⟨List.mem_cons_of_mem nm hintr.1, hintr.2⟩
            rw [if_pos hintr, if_pos h2]
          · have h2 : ¬ (o.name ∈ nm :: rest ∧
                obs.find? (fun x => x.name == o.name) = some o) := by
              rintro ⟨hmem, hfo⟩
              rcases List.mem_cons.mp hmem with h | h
              · exact hon h
              · exact hintr ⟨h, hfo⟩
            rw [if_neg hintr, if_neg h2]

theorem simple_partition (obs : List Obs) (trainNames : List String)
    (hndObs : (obs.map Obs.name).Nodup) (hndT : trainNames.Nodup) :
    (findByNames obs trainNames ++
      findByNames obs ((obs.map Obs.name).filter
        (fun nm => ! trainNames.contains nm))).Perm obs := by
  rw [List.perm_iff_count]
  intro o
  rw [List.count_append, count_findByNames obs trainNames hndT o,
    count_findByNames obs _ (hndObs.filter _) o]
  by_cases ho : o ∈ obs
  · have hfind := find?_eq_some_of_mem obs hndObs o ho
    have honame : o.name ∈ obs.map Obs.name := List.mem_map_of_mem Obs.name ho
    have hcount1 : obs.count o = 1 :=
      List.count_eq_one_of_mem (List.Nodup.of_map Obs.name hndObs) ho
    by_cases ht : o.name ∈ trainNames
    · have hnotfilter : o.name ∉ (obs.map Obs.name).filter
          (fun nm => ! trainNames.contains nm) := by
        rw [List.mem_filter]
        rintro ⟨_, hc⟩
        rw [Bool.not_eq_true', ← Bool.not_eq_true, contains_true_iff] at hc
        exact hc ht
      rw [if_pos ⟨ht, hfind⟩, if_neg (fun hcd => hnotfilter hcd.1), hcount1]
    · have hfilter : o.name ∈ (obs.map Obs.name).filter
          (fun nm => ! trainNames.contains nm) := by
        rw [List.mem_filter]
        refine ⟨honame, ?_⟩
        rw [Bool.not_eq_true', ← Bool.not_eq_true, contains_true_iff]
        exact ht
      rw [if_neg (fun hcd => ht hcd.1), if_pos ⟨hfilter, hfind⟩, hcount1]
  · have hnofind : obs.find? (fun x => x.name == o.name) ≠ some o :=
      fun hc => ho (List.mem_of_find?_eq_some hc)
    rw [if_neg (fun hcd => hnofind hcd.2), if_neg (fun hcd => hnofind hcd.2),
      List.count_eq_zero_of_not_mem ho]


theorem splitDataHelper_partition
    (rngChoice legacyChoice : ℕ → List String → ℕ → List String)
    (adata : SplitData) (ar : List String) (f : ℚ) (t : String) (s : Option ℕ)
    (train heldout : SplitData)
    (hndLc : ∀ sd xs n, xs.Nodup → (legacyChoice sd xs n).Nodup)
    (hndNames : (adata.obs.map Obs.name).Nodup)
    (hok : splitDataHelper rngChoice legacyChoice adata ar f t s = .ok (train, heldout)) :
    (train.obs ++ heldout.obs).Perm adata.obs := by
  unfold splitDataHelper at hok
  simp only [] at hok
  split at hok
  · split at hok
    · exact absurd hok (by simp)
    · have h := Except.ok.inj hok
      have h1 := congrArg Prod.fst h
      have h2 := congrArg Prod.snd h
      dsimp only at h1 h2
      rw [← h1, ← h2]
      exact interventional_partition rngChoice adata ar f (s.getD 0)
  · split at hok
    · split at hok
      · exact absurd hok (by simp)
      · have h := Except.ok.inj hok
        have h1 := congrArg Prod.fst h
        have h2 := congrArg Prod.snd h
        dsimp only at h1 h2
        rw [← h1, ← h2]
        unfold unsIntersect
        dsimp only
        exact simple_partition adata.obs _ hndNames (hndLc _ _ _ hndNames)
    · split at hok
      · exact absurd hok (by simp)
      · exact absurd hok (by simp)

/-- Claim C3: for every input AnnData and both split types, the
`(train, heldout)` pair returned by `splitDataWrapper` is a partition of the
input observations: the two returned observation lists together form a
permutation of the input's observation list (so every observation appears
in exactly one of the two outputs, none dropped, none duplicated).
Hypotheses: a seeded numpy sample without replacement from a
duplicate-free population is duplicate-free, and (as AnnData label
indexing expects) the input obs names are unique — the simple split
selects rows by name. -/
theorem claimC3 (rngChoice legacyChoice : ℕ → List String → ℕ → List String)
    (adata : SplitData) (f : ℚ) (networks : List (String × List String))
    (mode t : String) (s : Option ℕ) (train heldout : SplitData)
    (hndLc : ∀ sd xs n, xs.Nodup → (legacyChoice sd xs n).Nodup)
    (hndNames : (adata.obs.map Obs.name).Nodup)
    (hok : splitDataWrapper rngChoice legacyChoice adata f networks mode t s =
      .ok (train, heldout)) :
    (train.obs ++ heldout.obs).Perm adata.obs ∧
      ∀ o : Obs, train.obs.count o + heldout.obs.count o = adata.obs.count o := by
  have hperm : (train.obs ++ heldout.obs).Perm adata.obs := by
    unfold splitDataWrapper at hok
    split at hok
    · exact splitDataHelper_partition _ _ adata _ f t _ train heldout hndLc hndNames hok
    · split at hok
      · split at hok
        · exact absurd hok (by simp)
        · exact splitDataHelper_partition _ _ adata _ f t _ train heldout hndLc hndNames hok
      · split at hok
        · split at hok
          · exact absurd hok (by simp)
          · exact splitDataHelper_partition _ _ adata _ f t _ train heldout hndLc hndNames hok
        · exact absurd hok (by simp)
  refine ⟨hperm, fun o => ?_⟩
  rw [← List.count_append]
  exact hperm.count_eq o

theorem claimC3_witness :
    ((SplitData.mk [⟨"c1", "GENE1"⟩] ["GENE1", "GENE2"] [] []).obs ++
      (SplitData.mk [⟨"c2", "GENE2"⟩] ["GENE1", "GENE2"] ["GENE2"] []).obs).Perm
      [⟨"c1", "GENE1"⟩, ⟨"c2", "GENE2"⟩] ∧
    ∀ o : Obs,
      (SplitData.mk [⟨"c1", "GENE1"⟩] ["GENE1", "GENE2"] [] []).obs.count o +
        (SplitData.mk [⟨"c2", "GENE2"⟩] ["GENE1", "GENE2"] ["GENE2"] []).obs.count o =
        ([⟨"c1", "GENE1"⟩, ⟨"c2", "GENE2"⟩] : List Obs).count o := by
  have hok : splitDataWrapper (fun _ xs n => xs.take n) (fun _ xs n => xs.take n)
      ⟨[⟨"c1", "GENE1"⟩, ⟨"c2", "GENE2"⟩], ["GENE1", "GENE2"], ["GENE2"], []⟩
      1 [] "all" "interventional" none =
      .ok (⟨[⟨"c1", "GENE1"⟩], ["GENE1", "GENE2"], [], []⟩,
           ⟨[⟨"c2", "GENE2"⟩], ["GENE1", "GENE2"], ["GENE2"], []⟩) := by
    show splitDataHelper (fun _ xs n => xs.take n) (fun _ xs n => xs.take n)
      ⟨[⟨"c1", "GENE1"⟩, ⟨"c2", "GENE2"⟩], ["GENE1", "GENE2"], ["GENE2"], []⟩
      ["GENE1", "GENE2"] 1 "interventional" (some 0) = _
    rw [splitDataHelper_interventional_eq _ _ _ _ _ _ (by decide),
      interventionalPertSets_of_le _ _ _ _ _ (eligibleHeldoutFraction_le_one _ _)]
    exact congrArg Except.ok (by decide)
  exact claimC3 (fun _ xs n => xs.take n) (fun _ xs n => xs.take n)
    ⟨[⟨"c1", "GENE1"⟩, ⟨"c2", "GENE2"⟩], ["GENE1", "GENE2"], ["GENE2"], []⟩
    1 [] "all" "interventional" none
    ⟨[⟨"c1", "GENE1"⟩], ["GENE1", "GENE2"], [], []⟩
    ⟨[⟨"c2", "GENE2"⟩], ["GENE1", "GENE2"], ["GENE2"], []⟩
    (fun _ xs _ hxs => hxs.sublist (List.take_sublist _ xs))
    (by decide) hok

theorem nodup_length_eq_of_mem_iff (l1 l2 : List String) (h1 : l1.Nodup)
    (h2 : l2.Nodup) (h : ∀ a, a ∈ l1 ↔ a ∈ l2) : l1.length = l2.length :=
  ((List.perm_ext_iff_of_nodup h1 h2).mpr h).length_eq

/-- Removing a duplicate-free batch of elements from a duplicate-free list
removes exactly that many elements. -/
theorem length_filter_not_contains (E ex : List String) (hE : E.Nodup)
    (hex : ex.Nodup) (hsub : ∀ p ∈ ex, p ∈ E) :
    (E.filter (fun p => ! ex.contains p)).length = E.length - ex.length := by
  have hperm : (E.filter (fun p => ex.contains p)).Perm ex := by
    rw [List.perm_ext_iff_of_nodup (hE.filter _) hex]
    intro a
    rw [List.mem_filter, contains_true_iff]
    exact ⟨fun h => h.2, fun h => ⟨hsub a h, h⟩⟩
  have hsplit := (List.filter_append_perm (fun p => ex.contains p) E).length_eq
  rw [List.length_append] at hsplit
  have hexlen := hperm.length_eq
  omega

/-- Restricting to a duplicate-free set of perturbations, all of which occur
among the observations, yields exactly that many unique perturbations. -/
theorem countUniquePerts_restrict (adata : SplitData) (T : List String)
    (hnd : T.Nodup) (hsub : ∀ p ∈ T, p ∈ adata.obs.map Obs.perturbation) :
    countUniquePerts (restrictToPerts adata T) = T.length := by
  unfold countUniquePerts restrictToPerts
  dsimp only
  apply List.Perm.length_eq
  rw [List.perm_ext_iff_of_nodup (nodup_uniqueKeepOrder _) hnd]
  intro p
  rw [mem_uniqueKeepOrder]
  constructor
  · intro hp
    obtain ⟨o, ho, hop⟩ := List.mem_map.mp hp
    have hcont := (List.mem_filter.mp ho).2
    rw [← hop]
    exact (contains_true_iff _ _).mp hcont
  · intro hp
    obtain ⟨o, ho, hop⟩ := List.mem_map.mp (hsub p hp)
    refine List.mem_map.mpr ⟨o, List.mem_filter.mpr ⟨ho, ?_⟩, hop⟩
    rw [contains_true_iff, hop]
    exact hp

/-- Claim C1: in the interventional split, with `N` the number of unique
perturbations and `e` the number of unique test-eligible ones: if
`e/N > desired_heldout_fraction` the heldout set receives exactly
`⌊desired_heldout_fraction * N⌋` unique perturbations, which equals
`e - ⌈(e/N - desired_heldout_fraction) * N⌉` (the excess is put back into
training); if `e/N ≤ desired_heldout_fraction`, every eligible perturbation
goes to the heldout set and every ineligible one to training.
Hypotheses: the fraction is nonnegative, and a seeded numpy sample without
replacement of `n ≤ len(xs)` elements from a duplicate-free population `xs`
has exactly `n` elements, no duplicates, and is drawn from `xs`. -/
theorem claimC1 (rngChoice legacyChoice : ℕ → List String → ℕ → List String)
    (adata : SplitData) (ar : List String) (f : ℚ) (s : Option ℕ)
    (train heldout : SplitData)
    (hf : 0 ≤ f)
    (hrc : ∀ sd xs n, n ≤ xs.length → xs.Nodup →
      (rngChoice sd xs n).length = n ∧ (rngChoice sd xs n).Nodup ∧
        ∀ p ∈ rngChoice sd xs n, p ∈ xs)
    (hok : splitDataHelper rngChoice legacyChoice adata ar f "interventional" s =
      .ok (train, heldout)) :
    (f < eligibleHeldoutFraction adata ar →
      countUniquePerts heldout = (⌊f * (totalNumPerts adata ar : ℚ)⌋).toNat ∧
      ((⌊f * (totalNumPerts adata ar : ℚ)⌋).toNat : ℤ) =
        ((testSetEligible adata ar).length : ℤ) -
          ⌈(eligibleHeldoutFraction adata ar - f) * (totalNumPerts adata ar : ℚ)⌉) ∧
    (eligibleHeldoutFraction adata ar ≤ f →
      ∀ o ∈ adata.obs,
        (isEligible adata ar o.perturbation = true → o ∈ heldout.obs) ∧
        (isEligible adata ar o.perturbation = false → o ∈ train.obs)) := by
  obtain ⟨hN, htrain, hheld⟩ := splitDataHelper_interventional_ok _ _ _ _ _ _ _ _ hok
  constructor
  · intro hgt
    have hNpos : (0 : ℚ) < (totalNumPerts adata ar : ℚ) := by
      exact_mod_cast Nat.pos_of_ne_zero hN
    have hmul : (eligibleHeldoutFraction adata ar - f) * (totalNumPerts adata ar : ℚ) =
        ((testSetEligible adata ar).length : ℚ) - f * (totalNumPerts adata ar : ℚ) := by
      unfold eligibleHeldoutFraction
      field_simp
      ring
    have hflt : f * (totalNumPerts adata ar : ℚ) <
        ((testSetEligible adata ar).length : ℚ) := by
      have h2 := hgt
      unfold eligibleHeldoutFraction at h2
      exact (lt_div_iff₀ hNpos).mp h2
    have hfloor0 : 0 ≤ ⌊f * (totalNumPerts adata ar : ℚ)⌋ :=
      Int.floor_nonneg.mpr (mul_nonneg hf (le_of_lt hNpos))
    have hfloorlt : ⌊f * (totalNumPerts adata ar : ℚ)⌋ <
        ((testSetEligible adata ar).length : ℤ) :=
      Int.floor_lt.mpr (by exact_mod_cast hflt)
    have hceil : ⌈(eligibleHeldoutFraction adata ar - f) * (totalNumPerts adata ar : ℚ)⌉ =
        ((testSetEligible adata ar).length : ℤ) - ⌊f * (totalNumPerts adata ar : ℚ)⌋ := by
      rw [hmul, sub_eq_neg_add,
        show ((testSetEligible adata ar).length : ℚ) =
          (((testSetEligible adata ar).length : ℤ) : ℚ) by push_cast; ring,
        Int.ceil_add_int, Int.ceil_neg]
      ring
    have hnumEx : (numExcessTestEligible adata ar f : ℤ) =
        ((testSetEligible adata ar).length : ℤ) -
          ⌊f * (totalNumPerts adata ar : ℚ)⌋ := by
      unfold numExcessTestEligible
      rw [hceil]
      omega
    have hEnodup : (testSetEligible adata ar).Nodup := nodup_uniqueKeepOrder _
    have hnumExle : numExcessTestEligible adata ar f ≤ (testSetEligible adata ar).length := by
      omega
    obtain ⟨hlen, hndex, hsubex⟩ := hrc (s.getD 0) (testSetEligible adata ar)
      (numExcessTestEligible adata ar f) hnumExle hEnodup
    have hsets := interventionalPertSets_of_gt rngChoice adata ar f (s.getD 0) hgt
    have hheld2 : heldout = restrictToPerts adata
        ((testSetEligible adata ar).filter
          (fun p => ! (rngChoice (s.getD 0) (testSetEligible adata ar)
            (numExcessTestEligible adata ar f)).contains p)) := by
      rw [hheld, hsets]
    have hcount : countUniquePerts heldout =
        ((testSetEligible adata ar).filter
          (fun p => ! (rngChoice (s.getD 0) (testSetEligible adata ar)
            (numExcessTestEligible adata ar f)).contains p)).length := by
      rw [hheld2]
      apply countUniquePerts_restrict
      · exact hEnodup.filter _
      · intro p hp
        exact ((mem_testSetEligible adata ar p).mp (List.mem_filter.mp hp).1).1
    rw [hcount, length_filter_not_contains _ _ hEnodup hndex hsubex, hlen]
    omega
  · intro hle o ho
    have hsets := interventionalPertSets_of_le rngChoice adata ar f (s.getD 0) hle
    have hpertmem : o.perturbation ∈ adata.obs.map Obs.perturbation :=
      List.mem_map_of_mem Obs.perturbation ho
    constructor
    · intro helig
      rw [hheld, hsets]
      unfold restrictToPerts
      dsimp only
      refine List.mem_filter.mpr ⟨ho, ?_⟩
      rw [contains_true_iff]
      exact (mem_testSetEligible adata ar o.perturbation).mpr ⟨hpertmem, helig⟩
    · intro hinelig
      rw [htrain, hsets]
      unfold restrictToPerts
      dsimp only
      refine List.mem_filter.mpr ⟨ho, ?_⟩
      rw [contains_true_iff]
      exact (mem_testSetIneligible adata ar o.perturbation).mpr ⟨hpertmem, hinelig⟩

theorem claimC1_witness :
    ((0 : ℚ) < eligibleHeldoutFraction
        ⟨[⟨"c1", "A"⟩, ⟨"c2", "B"⟩], ["A", "B"], ["A", "B"], []⟩ ["A", "B"] →
      countUniquePerts (SplitData.mk [] ["A", "B"] [] []) =
        (⌊(0 : ℚ) * ((totalNumPerts
          ⟨[⟨"c1", "A"⟩, ⟨"c2", "B"⟩], ["A", "B"], ["A", "B"], []⟩ ["A", "B"] : ℕ) : ℚ)⌋).toNat ∧
      (((⌊(0 : ℚ) * ((totalNumPerts
          ⟨[⟨"c1", "A"⟩, ⟨"c2", "B"⟩], ["A", "B"], ["A", "B"], []⟩ ["A", "B"] : ℕ) : ℚ)⌋).toNat : ℤ) =
        ((testSetEligible
          ⟨[⟨"c1", "A"⟩, ⟨"c2", "B"⟩], ["A", "B"], ["A", "B"], []⟩ ["A", "B"]).length : ℤ) -
          ⌈(eligibleHeldoutFraction
            ⟨[⟨"c1", "A"⟩, ⟨"c2", "B"⟩], ["A", "B"], ["A", "B"], []⟩ ["A", "B"] - 0) *
            ((totalNumPerts
              ⟨[⟨"c1", "A"⟩, ⟨"c2", "B"⟩], ["A", "B"], ["A", "B"], []⟩ ["A", "B"] : ℕ) : ℚ)⌉)) ∧
    (eligibleHeldoutFraction
        ⟨[⟨"c1", "A"⟩, ⟨"c2", "B"⟩], ["A", "B"], ["A", "B"], []⟩ ["A", "B"] ≤ 0 →
      ∀ o ∈ (SplitData.mk [⟨"c1", "A"⟩, ⟨"c2", "B"⟩] ["A", "B"] ["A", "B"] []).obs,
        (isEligible ⟨[⟨"c1", "A"⟩, ⟨"c2", "B"⟩], ["A", "B"], ["A", "B"], []⟩
            ["A", "B"] o.perturbation = true →
          o ∈ (SplitData.mk [] ["A", "B"] [] []).obs) ∧
        (isEligible ⟨[⟨"c1", "A"⟩, ⟨"c2", "B"⟩], ["A", "B"], ["A", "B"], []⟩
            ["A", "B"] o.perturbation = false →
          o ∈ (SplitData.mk [⟨"c1", "A"⟩, ⟨"c2", "B"⟩] ["A", "B"] ["A", "B"] []).obs)) := by
  have he : (testSetEligible ⟨[⟨"c1", "A"⟩, ⟨"c2", "B"⟩], ["A", "B"], ["A", "B"], []⟩
      ["A", "B"]).length = 2 := by decide
  have hN : totalNumPerts ⟨[⟨"c1", "A"⟩, ⟨"c2", "B"⟩], ["A", "B"], ["A", "B"], []⟩
      ["A", "B"] = 2 := by decide
  have hehf : eligibleHeldoutFraction
      ⟨[⟨"c1", "A"⟩, ⟨"c2", "B"⟩], ["A", "B"], ["A", "B"], []⟩ ["A", "B"] = 1 := by
    unfold eligibleHeldoutFraction
    rw [he, hN]
    norm_num
  have hgt : (0 : ℚ) < eligibleHeldoutFraction
      ⟨[⟨"c1", "A"⟩, ⟨"c2", "B"⟩], ["A", "B"], ["A", "B"], []⟩ ["A", "B"] := by
    rw [hehf]; norm_num
  have hnum : numExcessTestEligible
      ⟨[⟨"c1", "A"⟩, ⟨"c2", "B"⟩], ["A", "B"], ["A", "B"], []⟩ ["A", "B"] 0 = 2 := by
    unfold numExcessTestEligible
    rw [hehf, hN]
    norm_num
    decide
  have hok : splitDataHelper (fun _ xs n => xs.take n) (fun _ xs n => xs.take n)
      ⟨[⟨"c1", "A"⟩, ⟨"c2", "B"⟩], ["A", "B"], ["A", "B"], []⟩
      ["A", "B"] 0 "interventional" none =
      .ok (⟨[⟨"c1", "A"⟩, ⟨"c2", "B"⟩], ["A", "B"], ["A", "B"], []⟩,
           ⟨[], ["A", "B"], [], []⟩) := by
    rw [splitDataHelper_interventional_eq _ _ _ _ _ _ (by decide),
      interventionalPertSets_of_gt _ _ _ _ _ hgt, hnum]
    exact congrArg Except.ok (by decide)
  exact claimC1 (fun _ xs n => xs.take n) (fun _ xs n => xs.take n)
    ⟨[⟨"c1", "A"⟩, ⟨"c2", "B"⟩], ["A", "B"], ["A", "B"], []⟩ ["A", "B"] 0 none
    ⟨[⟨"c1", "A"⟩, ⟨"c2", "B"⟩], ["A", "B"], ["A", "B"], []⟩ ⟨[], ["A", "B"], [], []⟩
    le_rfl
    (fun _ xs n hn hxs => ⟨by simpa using hn, hxs.sublist (List.take_sublist _ xs),
      fun p hp => (List.take_sublist _ xs).mem hp⟩)
    hok

/-!
### evaluator.py

The statistical library calls that are external to this repository
(`scipy.stats.spearmanr`, `np.std`, the optional sklearn classifier) are
uninterpreted parameters `sp`, `npStd`, `classifier`: they are deterministic
functions of their inputs, and every claim about this file is about which
data reaches them and what is done with their results.
NaN handling: matrix entries are exact rationals; the one place the code
tests for NaN (`type(predicted) is float and np.isnan(predicted)`, the
"prediction is a NaN scalar" case of `evaluate_per_pert`) is modelled by
letting a predicted row be `Option (List ℚ)` with `none` for a row whose
extraction yields a NaN float scalar; metric values that can be `np.nan`
are `Option ℚ` with `none` for NaN.
-/

/-- The parts of an AnnData object read by the evaluation pipeline:
the expression matrix `.X` (rows = observations), `.obs_names`,
`.var_names`, and the obs columns `"perturbation"` and
`"expression_level_after_perturbation"` (the latter already numeric with
NaN as `none`, the normal form after `pd.to_numeric(..., errors="coerce")`).
AnnData guarantees `.X.shape == (len(obs_names), len(var_names))`. -/
structure EData where
  X : List (List ℚ)
  obsNames : List String
  varNames : List String
  obsPert : List String
  obsElap : List (Option ℚ)
deriving Repr

/-- `.X.shape` (using the AnnData shape invariant). -/
def EData.shape (a : EData) : ℕ × ℕ := (a.obsNames.length, a.varNames.length)

/-- Elementwise difference of two equal-length numpy vectors. -/
def vsub (x y : List ℚ) : List ℚ := List.zipWith (fun a b => a - b) x y

/-- `np.abs(v).sum()`. -/
def sumAbs (x : List ℚ) : ℚ := (x.map (fun v => |v|)).sum

/-- `np.linalg.norm(v) ** 2`: the sum of squares (exact in the rational
idealisation). -/
def sumSq (x : List ℚ) : ℚ := (x.map (fun v => v * v)).sum

/-- `np.mean(v)` (on the empty vector numpy warns and yields NaN; every use
in the claims has nonempty input, where `ℚ` division by zero never occurs). -/
def qmean (x : List ℚ) : ℚ := x.sum / (x.length : ℚ)

/-- `scipy.stats.rankdata` with the default `method="average"`: the rank of
an element is the number of strictly smaller elements plus the average
position among its ties. -/
def rankdata (xs : List ℚ) : List ℚ :=
  xs.map (fun x => (xs.countP (fun y => decide (y < x)) : ℚ) +
    ((xs.countP (fun y => decide (y = x)) : ℚ) + 1) / 2)

/-- Column `i` of a numpy matrix (in range in every use; numpy would raise
out of range). -/
def npCol (X : List (List ℚ)) (i : ℕ) : List ℚ := X.map (fun r => r.getD i 0)

/-- `baseline.X.mean(axis=0).squeeze()` (evaluator.py line 649): the
per-gene mean of the control expression. The column count of a rectangular
numpy array is read off its first row. -/
def npMeanAxis0 (X : List (List ℚ)) : List ℚ :=
  match X with
  | [] => []
  | r :: _ => (List.range r.length).map
      (fun j => (X.map (fun row => row.getD j 0)).sum / (X.length : ℚ))

/-- `evaluate_per_target` (evaluator.py lines 481-499): the gene name, the
standard deviation of the predictions, `np.abs(observed - predicted).sum()`
and `np.linalg.norm(observed - predicted) ** 2` for column `i`. -/
def evaluate_per_target (npStd : List ℚ → ℚ) (i : ℕ) (target : String)
    (expression predictedExpression : List (List ℚ)) : String × ℚ × ℚ × ℚ :=
  let observed := npCol expression i
  let predicted := npCol predictedExpression i
  (target, npStd predicted, sumAbs (vsub observed predicted),
    sumSq (vsub observed predicted))

/-- `evaluate_across_targets` (lines 501-515): the joblib `Parallel` over
`delayed(evaluate_per_target)` is a data-parallel map over the enumerated
target genes; its embedding is that map. -/
def evaluate_across_targets (npStd : List ℚ → ℚ)
    (expression predictedExpression : EData) : List (String × ℚ × ℚ × ℚ) :=
  (predictedExpression.varNames.enum).map
    (fun it => evaluate_per_target npStd it.1 it.2 expression.X predictedExpression.X)

/-- The residuals `o[top_n] - p[top_n]` where `top_n = rank(-np.abs(o)) <= n`
(the GEARS-style `mse_top_n` of lines 553-555). -/
def topNResiduals (n : ℕ) (o p : List ℚ) : List ℚ :=
  ((List.zipWith (fun a b => a - b) o p).zip (rankdata (o.map (fun v => -|v|)))).filterMap
    (fun vr => if vr.2 ≤ (n : ℚ) then some vr.1 else Option.none)

/-- `evaluate_per_pert` (evaluator.py lines 517-561). `sp` models
`scipy.stats.spearmanr`, `npStd` models `np.std` (so `is_constant(x)` is
`npStd x < 1e-12`), `classifier` models the optional sklearn classifier's
`predict` on a single row. A `none` row of `predictedExpression` is a row
whose extraction squeezes to a NaN float scalar (the
`type(predicted) is float and np.isnan(predicted)` test). The nine metric
slots are `spearman, spearmanp, cell_fate_correct, mse_top_20, mse_top_100,
mse_top_200, mse, mae, proportion_correct_direction` with `none` for
`np.nan`. -/
def evaluate_per_pert (sp : List ℚ → List ℚ → ℚ × ℚ) (npStd : List ℚ → ℚ)
    (classifier : Option (List ℚ → ℕ)) (i : ℕ) (pert : String)
    (expression : List (List ℚ)) (predictedExpression : List (Option (List ℚ)))
    (baseline : List ℚ) : String × List (Option ℚ) :=
  match predictedExpression.getD i Option.none with
  | Option.none =>
    (pert, [some 0, some 1, Option.none, Option.none, Option.none, Option.none,
      Option.none, Option.none, Option.none])
  | some predicted =>
    let observed := expression.getD i []
    if npStd (vsub predicted baseline) < 1 / 10 ^ 12 ∨
        npStd (vsub observed baseline) < 1 / 10 ^ 12 then
      (pert, [some 0, some 1, Option.none, Option.none, Option.none, Option.none,
        Option.none, Option.none, Option.none])
    else
      let sres := sp (vsub observed baseline) (vsub predicted baseline)
      let mse := sumSq (vsub observed predicted)
      let mae := qmean ((vsub observed predicted).map (fun v => |v|))
      let pcd := qmean (List.zipWith
        (fun o p => if decide (0 ≤ o) = decide (0 ≤ p) then (1 : ℚ) else 0)
        observed predicted)
      let cellFate : Option ℚ :=
        match classifier with
        | Option.none => Option.none
        | some c => some (if c observed = c predicted then 1 else 0)
      (pert, [some sres.1, some sres.2, cellFate,
        some (sumSq (topNResiduals 20 observed predicted)),
        some (sumSq (topNResiduals 100 observed predicted)),
        some (sumSq (topNResiduals 200 observed predicted)),
        some mse, some mae, some pcd])

/-- `evaluate_across_perts` (evaluator.py lines 563-606): a data-parallel
map of `evaluate_per_pert` over the enumerated perturbations
(`perts = predictedExpression.obs.index`). The careful-check branch: the
`pandas` comparison `df1 == df2` raises a ValueError when the two frames'
row labels differ; when they agree, `all(df1 == df2)` iterates the column
labels of the boolean frame (two non-empty strings), so it is always
truthy and the `raise` on line 595 is unreachable. The per-pert rows of the
prediction matrix are numeric numpy rows, hence never NaN float scalars
(`map some`). -/
def evaluate_across_perts (sp : List ℚ → List ℚ → ℚ × ℚ) (npStd : List ℚ → ℚ)
    (classifier : Option (List ℚ → ℕ)) (doCarefulChecks : Bool)
    (expression predictedExpression : EData) (baseline : List ℚ) :
    Except String (List (String × List (Option ℚ))) :=
  if doCarefulChecks = true ∧ expression.obsNames ≠ predictedExpression.obsNames then
    .error "ValueError: Can only compare identically-labeled DataFrame objects"
  else
    .ok ((predictedExpression.obsNames.enum).map
      (fun it => evaluate_per_pert sp npStd classifier it.1 it.2 expression.X
        (predictedExpression.X.map some) baseline))

/-- `evaluateOnePrediction` (evaluator.py lines 608-698): the four
ValueError guards of lines 641-648, then the baseline per-gene mean, then
the per-target and per-pert statistics (with `do_careful_checks=True`).
The subsequent plotting section only writes files and copies
`metrics.index` into a `perturbation` column that the row pairs already
carry; it does not change any computed statistic. -/
def evaluateOnePrediction (sp : List ℚ → List ℚ → ℚ × ℚ) (npStd : List ℚ → ℚ)
    (classifier : Option (List ℚ → ℕ))
    (expression predictedExpression baseline : EData) :
    Except String ((List (String × List (Option ℚ))) × List (String × ℚ × ℚ × ℚ)) :=
  if expression.shape ≠ predictedExpression.shape then
    .error "ValueError: expression and predictedExpression shapes differ"
  else if expression.shape.2 ≠ baseline.shape.2 then
    .error "ValueError: expression and baseline must have the same number of genes"
  else if predictedExpression.obsNames.length ≠ expression.obsNames.length then
    .error "ValueError: expression and predictedExpression must have the same size .obs"
  else if predictedExpression.obsNames ≠ expression.obsNames then
    .error "ValueError: expression and predictedExpression must have the same indices"
  else
    let baselineVec := npMeanAxis0 baseline.X
    let metricsPerTarget := evaluate_across_targets npStd expression predictedExpression
    match evaluate_across_perts sp npStd classifier true expression predictedExpression
      baselineVec with
    | .error e => .error e
    | .ok metrics => .ok (metrics, metricsPerTarget)

theorem getD_map_enum {α β : Type} (f : ℕ × α → β) (l : List α) (dα : α) (dβ : β)
    (i : ℕ) (h : i < l.length) :
    ((l.enum).map f).getD i dβ = f (i, l.getD i dα) := by
  have h1 : (l.enum).get? i = some (i, l.get ⟨i, h⟩) := by
    rw [List.enum, List.enumFrom_get?, List.get?_eq_get h]
    simp
  rw [List.getD_eq_get?, List.get?_map, h1, List.getD_eq_get?, List.get?_eq_get h]
  rfl

theorem getD_map_some {α : Type} (l : List α) (d : α) (i : ℕ) (h : i < l.length) :
    (l.map some).getD i Option.none = some (l.getD i d) := by
  rw [List.getD_eq_get?, List.get?_map, List.get?_eq_get h, List.getD_eq_get?,
    List.get?_eq_get h]
  rfl

/-- Claim C5: the parallel evaluation is a pure data-parallel map over
independent rows: row `i` of `evaluate_across_perts` is exactly
`evaluate_per_pert` applied at index `i`, row `i` of
`evaluate_across_targets` is exactly `evaluate_per_target` applied at
index `i`, and neither per-row function depends on any part of the
matrices other than its own row (respectively column) — so no row's result
depends on any other row, and (the embedding being purely functional) no
shared state is mutated. -/
theorem claimC5 (sp : List ℚ → List ℚ → ℚ × ℚ) (npStd : List ℚ → ℚ)
    (classifier : Option (List ℚ → ℕ)) (dcc : Bool)
    (expression predictedExpression : EData) (baseline : List ℚ) :
    (∀ rows, evaluate_across_perts sp npStd classifier dcc expression
        predictedExpression baseline = .ok rows →
      ∀ i, i < predictedExpression.obsNames.length →
        rows.getD i ("", []) =
          evaluate_per_pert sp npStd classifier i
            (predictedExpression.obsNames.getD i "") expression.X
            (predictedExpression.X.map some) baseline) ∧
    (∀ i, i < predictedExpression.varNames.length →
      (evaluate_across_targets npStd expression predictedExpression).getD i ("", 0, 0, 0) =
        evaluate_per_target npStd i (predictedExpression.varNames.getD i "")
          expression.X predictedExpression.X) ∧
    (∀ i pert (X1 X2 : List (List ℚ)) (Y1 Y2 : List (Option (List ℚ))) (b : List ℚ),
      X1.getD i [] = X2.getD i [] → Y1.getD i Option.none = Y2.getD i Option.none →
      evaluate_per_pert sp npStd classifier i pert X1 Y1 b =
        evaluate_per_pert sp npStd classifier i pert X2 Y2 b) ∧
    (∀ i target (X1 X2 Y1 Y2 : List (List ℚ)),
      npCol X1 i = npCol X2 i → npCol Y1 i = npCol Y2 i →
      evaluate_per_target npStd i target X1 Y1 =
        evaluate_per_target npStd i target X2 Y2) := by
  refine ⟨?_, ?_, ?_, ?_⟩
  · intro rows hok i hi
    unfold evaluate_across_perts at hok
    split at hok
    · exact absurd hok (by simp)
    · rw [← Except.ok.inj hok]
      exact getD_map_enum _ _ "" _ i hi
  · intro i hi
    unfold evaluate_across_targets
    exact getD_map_enum _ _ "" _ i hi
  · intro i pert X1 X2 Y1 Y2 b hX hY
    unfold evaluate_per_pert
    rw [hX, hY]
  · intro i target X1 X2 Y1 Y2 hX hY
    unfold evaluate_per_target
    rw [hX, hY]

theorem claimC5_witness :
    ((((["c1"] : List String).enum).map (fun it =>
        evaluate_per_pert (fun _ _ => ((7 : ℚ), (0 : ℚ))) (fun _ => 1) Option.none
          it.1 it.2 [[(1 : ℚ), 2]] ([[(2 : ℚ), 1]].map some) [0, 0])).getD 0 ("", []) =
      evaluate_per_pert (fun _ _ => ((7 : ℚ), (0 : ℚ))) (fun _ => 1) Option.none 0
        ((["c1"] : List String).getD 0 "") [[(1 : ℚ), 2]]
        ([[(2 : ℚ), 1]].map some) [0, 0]) ∧
    (evaluate_per_pert (fun _ _ => ((7 : ℚ), (0 : ℚ))) (fun _ => 1) Option.none 0 "c1"
      [[(1 : ℚ), 2]] ([[(2 : ℚ), 1]].map some) [0, 0]).2.getD 0 Option.none =
      some (7 : ℚ) := by
  constructor
  · exact (claimC5 (fun _ _ => ((7 : ℚ), (0 : ℚ))) (fun _ => 1) Option.none false
      ⟨[[(1 : ℚ), 2]], ["c1"], ["g1", "g2"], ["p1"], [Option.none]⟩
      ⟨[[(2 : ℚ), 1]], ["c1"], ["g1", "g2"], ["p1"], [Option.none]⟩ [0, 0]).1
      _ rfl 0 (by decide)
  · unfold evaluate_per_pert
    have hguard : ¬ ((fun (_ : List ℚ) => (1 : ℚ)) (vsub [(2 : ℚ), 1] [0, 0]) < 1 / 10 ^ 12 ∨
        (fun (_ : List ℚ) => (1 : ℚ)) (vsub ([[(1 : ℚ), 2]].getD 0 []) [0, 0]) < 1 / 10 ^ 12) := by
      push_neg
      constructor <;> norm_num
    rw [show ((([[(2 : ℚ), 1]].map some).getD 0 Option.none)) = some [(2 : ℚ), 1] from rfl]
    dsimp only
    rw [if_neg hguard]
    rfl

/-- Claim C9: whenever the prediction row is a NaN scalar, or the standard
deviation of `predicted - baseline` is below `1e-12`, or the standard
deviation of `observed - baseline` is below `1e-12`, `evaluate_per_pert`
returns (it is a total function, so it cannot raise) spearman `0`,
spearmanp `1`, and NaN for the seven remaining metrics
(`cell_fate_correct`, `mse_top_20`, `mse_top_100`, `mse_top_200`, `mse`,
`mae`, `proportion_correct_direction`). -/
theorem claimC9 (sp : List ℚ → List ℚ → ℚ × ℚ) (npStd : List ℚ → ℚ)
    (classifier : Option (List ℚ → ℕ)) (i : ℕ) (pert : String)
    (X : List (List ℚ)) (Y : List (Option (List ℚ))) (b : List ℚ)
    (h : Y.getD i Option.none = Option.none ∨
      ∃ p, Y.getD i Option.none = some p ∧
        (npStd (vsub p b) < 1 / 10 ^ 12 ∨ npStd (vsub (X.getD i []) b) < 1 / 10 ^ 12)) :
    evaluate_per_pert sp npStd classifier i pert X Y b =
      (pert, [some 0, some 1, Option.none, Option.none, Option.none, Option.none,
        Option.none, Option.none, Option.none]) := by
  unfold evaluate_per_pert
  rcases h with h | ⟨p, hp, hlt⟩
  · rw [h]
  · rw [hp]
    dsimp only
    rw [if_pos hlt]

theorem claimC9_witness :
    evaluate_per_pert (fun _ _ => ((0 : ℚ), (0 : ℚ))) (fun _ => 0) Option.none 0 "p1"
      [[1, 2]] [Option.none] [0, 0] =
      ("p1", [some 0, some 1, Option.none, Option.none, Option.none, Option.none,
        Option.none, Option.none, Option.none]) :=
  claimC9 (fun _ _ => ((0 : ℚ), (0 : ℚ))) (fun _ => 0) Option.none 0 "p1"
    [[1, 2]] [Option.none] [0, 0] (Or.inl rfl)

/-- Claim C10: `evaluateOnePrediction` raises a ValueError before computing
any metric whenever the two expression matrices have different shapes, or
expression and baseline have a different number of genes, or the obs names
differ in length or content: the embedded function returns `Except.error`
(so no metrics table is produced; in the source, the only file writes of
this function sit after the metric computation, so none happens either). -/
theorem claimC10 (sp : List ℚ → List ℚ → ℚ × ℚ) (npStd : List ℚ → ℚ)
    (classifier : Option (List ℚ → ℕ))
    (expression predictedExpression baseline : EData)
    (h : expression.shape ≠ predictedExpression.shape ∨
      expression.shape.2 ≠ baseline.shape.2 ∨
      predictedExpression.obsNames.length ≠ expression.obsNames.length ∨
      predictedExpression.obsNames ≠ expression.obsNames) :
    ∃ msg, evaluateOnePrediction sp npStd classifier expression predictedExpression
      baseline = .error msg := by
  unfold evaluateOnePrediction
  split_ifs with h1 h2 h3 h4
  any_goals exact ⟨_, rfl⟩
  tauto

theorem claimC10_witness :
    ∃ msg, evaluateOnePrediction (fun _ _ => ((0 : ℚ), (0 : ℚ))) (fun _ => 0)
      Option.none ⟨[[1]], ["c1"], ["g1"], ["p1"], [Option.none]⟩
      ⟨[[1, 2]], ["c1"], ["g1", "g2"], ["p1"], [Option.none]⟩
      ⟨[[1]], ["c1"], ["g1"], ["p1"], [Option.none]⟩ = .error msg :=
  claimC10 (fun _ _ => ((0 : ℚ), (0 : ℚ))) (fun _ => 0) Option.none
    ⟨[[1]], ["c1"], ["g1"], ["p1"], [Option.none]⟩
    ⟨[[1, 2]], ["c1"], ["g1", "g2"], ["p1"], [Option.none]⟩
    ⟨[[1]], ["c1"], ["g1"], ["p1"], [Option.none]⟩
    (Or.inl (by decide))

/-- Claim C6: for every perturbation row whose prediction is not a NaN
scalar (in-range numeric rows never are) and whose predicted and observed
log fold changes are not constant, the `spearman` entry that
`evaluateOnePrediction` reports for row `i` is the (first component of the)
Spearman correlation `sp` applied to `observed - baseline` and
`predicted - baseline`, in that order, where `baseline` is the per-gene
mean of the control expression passed to `evaluateOnePrediction`. -/
theorem claimC6 (sp : List ℚ → List ℚ → ℚ × ℚ) (npStd : List ℚ → ℚ)
    (classifier : Option (List ℚ → ℕ))
    (expression predictedExpression baseline : EData) (i : ℕ)
    (mp : List (String × List (Option ℚ))) (mt : List (String × ℚ × ℚ × ℚ))
    (hok : evaluateOnePrediction sp npStd classifier expression predictedExpression
      baseline = .ok (mp, mt))
    (hi : i < predictedExpression.obsNames.length)
    (hX : predictedExpression.X.length = predictedExpression.obsNames.length)
    (hp : ¬ npStd (vsub (predictedExpression.X.getD i [])
      (npMeanAxis0 baseline.X)) < 1 / 10 ^ 12)
    (ho : ¬ npStd (vsub (expression.X.getD i [])
      (npMeanAxis0 baseline.X)) < 1 / 10 ^ 12) :
    (mp.getD i ("", [])).2.getD 0 Option.none =
      some ((sp (vsub (expression.X.getD i []) (npMeanAxis0 baseline.X))
        (vsub (predictedExpression.X.getD i []) (npMeanAxis0 baseline.X))).1) := by
  unfold evaluateOnePrediction at hok
  split at hok
  · exact absurd hok (by simp)
  split at hok
  · exact absurd hok (by simp)
  split at hok
  · exact absurd hok (by simp)
  split at hok
  · exact absurd hok (by simp)
  rename_i h4
  unfold evaluate_across_perts at hok
  simp only [] at hok
  split at hok
  · exact absurd hok (by simp)
  rename_i metrics heq
  have hnames : expression.obsNames = predictedExpression.obsNames :=
    (not_ne_iff.mp h4).symm
  have hcond : ¬ (True ∧ expression.obsNames ≠ predictedExpression.obsNames) :=
    fun hc => hc.2 hnames
  rw [if_neg hcond] at heq
  have hmp : mp = (predictedExpression.obsNames.enum).map
      (fun it => evaluate_per_pert sp npStd classifier it.1 it.2 expression.X
        (predictedExpression.X.map some) (npMeanAxis0 baseline.X)) :=
    ((Except.ok.inj heq).trans (congrArg Prod.fst (Except.ok.inj hok))).symm
  rw [hmp, getD_map_enum _ _ "" _ i hi]
  unfold evaluate_per_pert
  rw [getD_map_some predictedExpression.X [] i (by omega)]
  dsimp only
  rw [if_neg (by tauto)]
  rfl

theorem claimC6_witness :
    ((((["c1"] : List String).enum).map
      (fun it => evaluate_per_pert (fun _ _ => ((7 : ℚ), (0 : ℚ))) (fun _ => 1)
        Option.none it.1 it.2 [[(1 : ℚ), 2]] ([[(2 : ℚ), 1]].map some)
        (npMeanAxis0 [[(0 : ℚ), 0]]))).getD 0 ("", [])).2.getD 0 Option.none =
      some ((7 : ℚ)) := by
  have h := claimC6 (fun _ _ => ((7 : ℚ), (0 : ℚ))) (fun _ => 1) Option.none
    ⟨[[(1 : ℚ), 2]], ["c1"], ["g1", "g2"], ["p1"], [Option.none]⟩
    ⟨[[(2 : ℚ), 1]], ["c1"], ["g1", "g2"], ["p1"], [Option.none]⟩
    ⟨[[(0 : ℚ), 0]], ["b1"], ["g1", "g2"], ["ctrl"], [Option.none]⟩ 0
    _ _ rfl (by decide) (by decide) (by norm_num) (by norm_num)
  exact h

/-!
### Experiment metadata (`lay_out_runs`, `validate_metadata`)

Experiment metadata is a JSON object; Python dicts preserve insertion
order, so a dict is an ordered association list (metadata files have
unique keys). Assignment to an existing key updates it in place, to a new
key appends it. -/

/-- A JSON-ish Python value as found in experiment metadata. -/
inductive MValue where
  | str (s : String)
  | num (n : ℤ)
  | rat (q : ℚ)
  | bool (b : Bool)
  | list (xs : List MValue)
  | dict (d : List (String × MValue))
  | null

/-- Dict lookup (`d[k]` / `k in d`). -/
def alookup : List (String × MValue) → String → Option MValue
  | [], _ => Option.none
  | (k2, v) :: rest, k => if k2 = k then some v else alookup rest k

/-- Python `del d[k]` (keys are unique; order of the rest is kept). -/
def aerase (d : List (String × MValue)) (k : String) : List (String × MValue) :=
  d.filter (fun kv => decide (kv.1 ≠ k))

/-- Python `d[k] = v`: update in place when the key exists, append when new. -/
def setKey : List (String × MValue) → String → MValue → List (String × MValue)
  | [], k, v => [(k, v)]
  | (k2, v2) :: rest, k, v =>
    if k2 = k then (k, v) :: rest else (k2, v2) :: setKey rest k v

/-- `itertools.product(*values)`: all combinations, leftmost factor
outermost (so the rightmost varies fastest), in order. -/
def cartProd : List (List MValue) → List (List MValue)
  | [] => [[]]
  | xs :: rest => xs.bind (fun x => (cartProd rest).map (fun r => x :: r))

theorem cartProd_length (ls : List (List MValue)) :
    (cartProd ls).length = (ls.map List.length).prod := by
  induction ls with
  | nil => rfl
  | cons xs rest ih =>
    show (xs.bind (fun x => (cartProd rest).map (fun r => x :: r))).length = _
    rw [List.length_bind, List.map_cons, List.prod_cons, ← ih]
    simp only [Function.comp_def, List.length_map]
    rw [List.map_const', List.sum_replicate, smul_eq_mul]

/-- A pandas DataFrame as produced by `lay_out_runs`: column names and the
rows (one list of values per condition). -/
structure PyDataFrame where
  cols : List String
  rows : List (List MValue)

/-- Python `value == "dense"` on an arbitrary value: true exactly for the
string `"dense"`. -/
def isDenseStr : MValue → Bool
  | .str s => s == "dense"
  | _ => false

/-- The per-row `network_prior` overwrite of experimenter.py lines 226-228:
the value becomes `"ignore"` if the row's `network_datasets` is `"dense"`,
otherwise the row is unchanged. -/
def networkPriorFixup (cols : List String) (row : List MValue) : List MValue :=
  if isDenseStr (row.getD (cols.indexOf "network_datasets") MValue.null) then
    row.set (cols.indexOf "network_prior") (MValue.str "ignore")
  else row

/-- Wrap each singleton in a list (lines 216-218), read back as the list of
values to be producted. -/
def wrapSingleton (v : MValue) : List MValue :=
  match v with
  | .list xs => xs
  | v => [v]

/-- Lines 186-212 of `lay_out_runs`: delete `readme`, record the network
names in place of `network_datasets`, pull out `baseline_condition`,
delete `kwargs`/`kwargs_to_expand` and append each expanded kwarg as its
own entry. `none` models the Python exceptions (KeyError on a missing
`readme`/`baseline_condition`/`kwargs` key or expanded kwarg,
AttributeError/TypeError when `kwargs` is not a dict or `kwargs_to_expand`
is not a list of names). Returns the metadata with every value wrapped
(each entry now a list of values), and the baseline condition. -/
def layOutRunsPrepare (networks : List String) (metadata : List (String × MValue)) :
    Option (List (String × List MValue) × MValue) :=
  match alookup metadata "readme" with
  | Option.none => Option.none
  | some _ =>
    let md1 := aerase metadata "readme"
    let md2 := setKey md1 "network_datasets" (.list (networks.map .str))
    match alookup md2 "baseline_condition" with
    | Option.none => Option.none
    | some bc =>
      let md3 := aerase md2 "baseline_condition"
      match alookup md3 "kwargs", alookup md3 "kwargs_to_expand" with
      | some (.dict kwargs), some (.list kte) =>
        let md4 := aerase (aerase md3 "kwargs") "kwargs_to_expand"
        match expandKwargs md4 kte kwargs with
        | Option.none => Option.none
        | some md5 => some (md5.map (fun kv => (kv.1, wrapSingleton kv.2)), bc)
      | _, _ => Option.none
where
  expandKwargs (md : List (String × MValue)) (kte : List MValue)
      (kwargs : List (String × MValue)) : Option (List (String × MValue)) :=
    match kte with
    | [] => some md
    | .str k :: rest =>
      match alookup kwargs k with
      | some v => expandKwargs (setKey md k v) rest kwargs
      | Option.none => Option.none
    | _ :: _ => Option.none

/-- `lay_out_runs` (experimenter.py lines 171-232): the Cartesian product
of the prepared metadata values, then the `network_prior`-to-`"ignore"`
overwrite on every row whose `network_datasets` is `"dense"`, then
`baseline_condition` attached as a constant column. The row loop reads
`conditions.loc[i, "network_prior"]`, so the embedding requires the
`network_prior` column to exist (`none` otherwise; every metadata that
passed `validate_metadata` has it). -/
def lay_out_runs (networks : List String) (metadata : List (String × MValue)) :
    Option PyDataFrame :=
  match layOutRunsPrepare networks metadata with
  | Option.none => Option.none
  | some (wrapped, bc) =>
    let cols := wrapped.map Prod.fst
    if "network_prior" ∈ cols then
      some ⟨cols ++ ["baseline_condition"],
        ((cartProd (wrapped.map Prod.snd)).map (networkPriorFixup cols)).map
          (fun r => r ++ [bc])⟩
    else Option.none

/-- The rows that claim C7 asserts `lay_out_runs` returns: exactly the
Cartesian product of the prepared metadata values with the constant
`baseline_condition` attached — no `network_prior` overwrite. Stated
from the claim's words, for comparison with `lay_out_runs`. -/
def layOutRunsClaimedRows (networks : List String) (metadata : List (String × MValue)) :
    Option (List (List MValue)) :=
  match layOutRunsPrepare networks metadata with
  | Option.none => Option.none
  | some (wrapped, bc) =>
    some ((cartProd (wrapped.map Prod.snd)).map (fun r => r ++ [bc]))

theorem getD_map {α β : Type} (f : α → β) (l : List α) (dα : α) (dβ : β)
    (i : ℕ) (h : i < l.length) :
    (l.map f).getD i dβ = f (l.getD i dα) := by
  rw [List.getD_eq_get?, List.get?_map, List.get?_eq_get h, List.getD_eq_get?,
    List.get?_eq_get h]
  rfl

/-- Claim C7 counterexample: on a metadata whose `network_prior` is
`"flat"` and whose networks dict is `{"dense": ...}`, the conditions
DataFrame does not contain a row for the (unique) element
`(network_datasets="dense", network_prior="flat")` of the Cartesian
product of the transformed metadata values: the returned row carries
`network_prior="ignore"` instead, because of the overwrite at
experimenter.py lines 226-228, which the claim's list of transformations
does not include. -/
theorem claimC7_counterexample :
    lay_out_runs ["dense"]
      [("readme", .str "r"), ("network_datasets", .dict []),
       ("baseline_condition", .num 0), ("kwargs", .dict []),
       ("kwargs_to_expand", .list []), ("network_prior", .str "flat")] =
      some ⟨["network_datasets", "network_prior", "baseline_condition"],
        [[.str "dense", .str "ignore", .num 0]]⟩ ∧
    layOutRunsClaimedRows ["dense"]
      [("readme", .str "r"), ("network_datasets", .dict []),
       ("baseline_condition", .num 0), ("kwargs", .dict []),
       ("kwargs_to_expand", .list []), ("network_prior", .str "flat")] =
      some [[.str "dense", .str "flat", .num 0]] ∧
    ([MValue.str "dense", .str "flat", .num 0] : List MValue) ∉
      ([[MValue.str "dense", .str "ignore", .num 0]] : List (List MValue)) := by
  refine ⟨rfl, rfl, ?_⟩
  intro h
  rw [List.mem_singleton] at h
  simp at h

/-- Claim C7 (amended): `lay_out_runs` returns a DataFrame with exactly one
row, in order, for each element of the Cartesian product of the prepared
metadata values (after deleting `readme`, `baseline_condition`, `kwargs`
and `kwargs_to_expand`, replacing `network_datasets` with the network
names, expanding each kwarg named in `kwargs_to_expand` into its own
column, and wrapping every non-list value in a singleton list) — except
that in every row whose `network_datasets` value is `"dense"` the
`network_prior` value is overwritten with `"ignore"`. Its number of rows
equals the product of the lengths of the list-valued entries, and
`baseline_condition` is attached to every row as a constant last column. -/
theorem claimC7 (networks : List String) (metadata : List (String × MValue))
    (wrapped : List (String × List MValue)) (bc : MValue)
    (hprep : layOutRunsPrepare networks metadata = some (wrapped, bc))
    (hnp : "network_prior" ∈ wrapped.map Prod.fst) :
    ∃ df, lay_out_runs networks metadata = some df ∧
      df.cols = wrapped.map Prod.fst ++ ["baseline_condition"] ∧
      df.rows.length = (wrapped.map (fun kv => kv.2.length)).prod ∧
      (∀ i, i < df.rows.length →
        df.rows.getD i [] =
          networkPriorFixup (wrapped.map Prod.fst)
            ((cartProd (wrapped.map Prod.snd)).getD i []) ++ [bc]) ∧
      (∀ r ∈ df.rows, r.getLast? = some bc) := by
  have heq : lay_out_runs networks metadata =
      some ⟨wrapped.map Prod.fst ++ ["baseline_condition"],
        ((cartProd (wrapped.map Prod.snd)).map
          (networkPriorFixup (wrapped.map Prod.fst))).map (fun r => r ++ [bc])⟩ := by
    unfold lay_out_runs
    rw [hprep]
    dsimp only
    rw [if_pos hnp]
  refine ⟨_, heq, rfl, ?_, ?_, ?_⟩
  · show (((cartProd (wrapped.map Prod.snd)).map
      (networkPriorFixup (wrapped.map Prod.fst))).map (fun r => r ++ [bc])).length = _
    rw [List.length_map, List.length_map, cartProd_length, List.map_map]
    rfl
  · intro i hi
    rw [List.length_map, List.length_map] at hi
    show (((cartProd (wrapped.map Prod.snd)).map
      (networkPriorFixup (wrapped.map Prod.fst))).map (fun r => r ++ [bc])).getD i [] = _
    rw [getD_map _ _ [] _ i (by rw [List.length_map]; exact hi),
      getD_map _ _ [] _ i hi]
  · intro r hr
    have hr2 := List.mem_map.mp hr
    obtain ⟨r0, _, hr0⟩ := hr2
    rw [← hr0]
    exact List.getLast?_concat r0

theorem claimC7_witness :
    ∃ df, lay_out_runs ["dense"]
      [("readme", .str "r"), ("network_datasets", .dict []),
       ("baseline_condition", .num 0), ("kwargs", .dict []),
       ("kwargs_to_expand", .list []), ("network_prior", .str "flat")] = some df ∧
      df.cols = ([("network_datasets", [MValue.str "dense"]),
        ("network_prior", [MValue.str "flat"])].map Prod.fst) ++ ["baseline_condition"] ∧
      df.rows.length = ([("network_datasets", [MValue.str "dense"]),
        ("network_prior", [MValue.str "flat"])].map
          (fun kv => kv.2.length)).prod ∧
      (∀ i, i < df.rows.length →
        df.rows.getD i [] =
          networkPriorFixup ([("network_datasets", [MValue.str "dense"]),
              ("network_prior", [MValue.str "flat"])].map Prod.fst)
            ((cartProd ([("network_datasets", [MValue.str "dense"]),
              ("network_prior", [MValue.str "flat"])].map Prod.snd)).getD i []) ++
            [MValue.num 0]) ∧
      (∀ r ∈ df.rows, r.getLast? = some (MValue.num 0)) :=
  claimC7 ["dense"]
    [("readme", .str "r"), ("network_datasets", .dict []),
     ("baseline_condition", .num 0), ("kwargs", .dict []),
     ("kwargs_to_expand", .list []), ("network_prior", .str "flat")]
    [("network_datasets", [MValue.str "dense"]), ("network_prior", [MValue.str "flat"])]
    (MValue.num 0) rfl (by simp)

theorem alookup_append (l1 l2 : List (String × MValue)) (k : String) :
    alookup (l1 ++ l2) k =
      match alookup l1 k with
      | some v => some v
      | Option.none => alookup l2 k := by
  induction l1 with
  | nil => rfl
  | cons kv rest ih =>
    obtain ⟨k2, v2⟩ := kv
    show alookup ((k2, v2) :: (rest ++ l2)) k = _
    by_cases h : k2 = k
    · simp [alookup, h]
    · simp only [alookup, if_neg h]
      exact ih

theorem alookup_setKey_self (md : List (String × MValue)) (k : String) (v : MValue) :
    alookup (setKey md k v) k = some v := by
  induction md with
  | nil => simp [setKey, alookup]
  | cons kv rest ih =>
    obtain ⟨k2, v2⟩ := kv
    by_cases h : k2 = k
    · rw [setKey, if_pos h]
      simp [alookup]
    · rw [setKey, if_neg h]
      rw [alookup, if_neg h]
      exact ih

theorem alookup_setKey_other (md : List (String × MValue)) (k : String) (v : MValue)
    (k2 : String) (h : k2 ≠ k) :
    alookup (setKey md k v) k2 = alookup md k2 := by
  induction md with
  | nil =>
    show alookup [(k, v)] k2 = Option.none
    rw [alookup, if_neg (fun hh => h hh.symm)]
    rfl
  | cons kv rest ih =>
    obtain ⟨k0, v0⟩ := kv
    by_cases h0 : k0 = k
    · rw [setKey, if_pos h0]
      rw [alookup, alookup, if_neg (fun hh => h hh.symm), if_neg]
      rw [h0]
      exact fun hh => h hh.symm
    · rw [setKey, if_neg h0]
      rw [alookup, alookup]
      by_cases h2 : k0 = k2
      · rw [if_pos h2, if_pos h2]
      · rw [if_neg h2, if_neg h2]
        exact ih

/-- `for key in other.keys(): if key not in metadata: metadata[key] = other[key]`
(the merge of a referred-to experiment's metadata, experimenter.py lines
128-130, and the defaults fill of lines 135-138). -/
def mergeAbsent (md other : List (String × MValue)) : List (String × MValue) :=
  other.foldl (fun acc kv => if (alookup acc kv.1).isSome then acc else acc ++ [kv]) md

theorem mergeAbsent_cons (md : List (String × MValue)) (kv : String × MValue)
    (rest : List (String × MValue)) :
    mergeAbsent md (kv :: rest) =
      mergeAbsent (if (alookup md kv.1).isSome then md else md ++ [kv]) rest := rfl

theorem alookup_mergeAbsent_of_some (md other : List (String × MValue))
    (k : String) (v : MValue) (h : alookup md k = some v) :
    alookup (mergeAbsent md other) k = some v := by
  induction other generalizing md with
  | nil => exact h
  | cons kv rest ih =>
    rw [mergeAbsent_cons]
    by_cases hh : (alookup md kv.1).isSome
    · rw [if_pos hh]
      exact ih md h
    · rw [if_neg hh]
      apply ih
      rw [alookup_append, h]

theorem alookup_mergeAbsent_of_none (md other : List (String × MValue))
    (k : String) (v : MValue) (h1 : alookup md k = Option.none)
    (h2 : alookup other k = some v) :
    alookup (mergeAbsent md other) k = some v := by
  induction other generalizing md with
  | nil => cases h2
  | cons kv rest ih =>
    obtain ⟨k0, v0⟩ := kv
    rw [mergeAbsent_cons]
    by_cases hk : k0 = k
    · have hv : v0 = v := by
        rw [alookup, if_pos hk] at h2
        exact Option.some.inj h2
      rw [if_neg (by rw [hk, h1]; simp)]
      apply alookup_mergeAbsent_of_some
      rw [alookup_append, h1]
      rw [alookup, if_pos hk, hv]
    · rw [alookup, if_neg hk] at h2
      by_cases hh : (alookup md k0).isSome
      · rw [if_pos hh]
        exact ih md h1 h2
      · rw [if_neg hh]
        apply ih _ _ h2
        rw [alookup_append, h1]
        rw [alookup, if_neg hk]
        rfl

theorem alookup_mergeAbsent_none (md other : List (String × MValue)) (k : String)
    (h1 : alookup md k = Option.none) (h2 : alookup other k = Option.none) :
    alookup (mergeAbsent md other) k = Option.none := by
  induction other generalizing md with
  | nil => exact h1
  | cons kv rest ih =>
    obtain ⟨k0, v0⟩ := kv
    have hk : k0 ≠ k := by
      intro hc
      rw [alookup, if_pos hc] at h2
      cases h2
    rw [alookup, if_neg hk] at h2
    rw [mergeAbsent_cons]
    by_cases hh : (alookup md k0).isSome
    · rw [if_pos hh]
      exact ih md h1 h2
    · rw [if_neg hh]
      apply ih _ _ h2
      rw [alookup_append, h1]
      rw [alookup, if_neg hk]
      rfl

theorem isSome_alookup_mergeAbsent_right (md other : List (String × MValue))
    (k : String) (h2 : (alookup other k).isSome) :
    (alookup (mergeAbsent md other) k).isSome := by
  obtain ⟨v, hv⟩ := Option.isSome_iff_exists.mp h2
  cases hmd : alookup md k with
  | none => rw [alookup_mergeAbsent_of_none md other k v hmd hv]; rfl
  | some v0 => rw [alookup_mergeAbsent_of_some md other k v0 hmd]; rfl

theorem alookup_eq_of_mem_nodup (l : List (String × MValue))
    (hnd : (l.map Prod.fst).Nodup) (k : String) (v : MValue) (h : (k, v) ∈ l) :
    alookup l k = some v := by
  induction l with
  | nil => cases h
  | cons kv rest ih =>
    obtain ⟨k0, v0⟩ := kv
    rw [List.map_cons, List.nodup_cons] at hnd
    rcases List.mem_cons.mp h with h | h
    · have hk := congrArg Prod.fst h
      have hv := congrArg Prod.snd h
      dsimp only at hk hv
      rw [alookup, if_pos hk.symm, ← hv]
    · have hk : k0 ≠ k := by
        intro hc
        apply hnd.1
        rw [hc]
        exact List.mem_map.mpr ⟨(k, v), h, rfl⟩
      rw [alookup, if_neg hk]
      exact ih hnd.2 h

/-- `get_required_keys()` (experimenter.py lines 18-51). -/
def get_required_keys : List String :=
  ["unique_id", "nickname", "readme", "question", "is_active", "factor_varied",
   "color_by", "facet_by", "network_datasets", "perturbation_dataset",
   "merge_replicates", "desired_heldout_fraction", "type_of_split",
   "pruning_parameter", "pruning_strategy", "network_prior", "regression_method",
   "feature_extraction", "low_dimensional_structure", "low_dimensional_training",
   "matching_method", "prediction_timescale"]

/-- `get_optional_keys()` (experimenter.py lines 53-67). -/
def get_optional_keys : List String :=
  ["refers_to", "eligible_regulators", "predict_self", "num_genes",
   "baseline_condition", "data_split_seed", "starting_expression",
   "control_subtype", "kwargs_to_expand", "kwargs"]

/-- `get_default_metadata()` (experimenter.py lines 69-98), in the
source's insertion order. -/
def get_default_metadata : List (String × MValue) :=
  [("pruning_parameter", .null),
   ("pruning_strategy", .str "none"),
   ("network_prior", .str "ignore"),
   ("desired_heldout_fraction", .rat (1/2)),
   ("type_of_split", .str "interventional"),
   ("regression_method", .str "RidgeCV"),
   ("starting_expression", .str "control"),
   ("feature_extraction", .null),
   ("control_subtype", .null),
   ("kwargs", .dict []),
   ("kwargs_to_expand", .list []),
   ("data_split_seed", .num 0),
   ("baseline_condition", .num 0),
   ("num_genes", .num 10000),
   ("predict_self", .bool false),
   ("eligible_regulators", .str "all"),
   ("merge_replicates", .bool false),
   ("network_datasets", .dict [("dense", .dict [])]),
   ("low_dimensional_structure", .str "none"),
   ("low_dimensional_training", .str "svd"),
   ("matching_method", .str "steady_state"),
   ("prediction_timescale", .num 1)]

/-- Python truthiness of a metadata value. -/
def truthy : MValue → Bool
  | .bool b => b
  | .num n => decide (n ≠ 0)
  | .rat q => decide (q ≠ 0)
  | .str s => decide (s ≠ "")
  | .list xs => ! xs.isEmpty
  | .dict d => ! d.isEmpty
  | .null => false

/-- Python `experiment_name == metadata["unique_id"]`: true exactly when
the value is the equal string. -/
def isStrEq (v : Option MValue) (s : String) : Bool :=
  match v with
  | some (.str s2) => s2 == s
  | _ => false

/-- `("is_active" in metadata) and (not metadata["is_active"])`. -/
def isFalsyPresent (v : Option MValue) : Bool :=
  match v with
  | some v => ! truthy v
  | Option.none => false

/-- Fill one `network_datasets` entry (experimenter.py lines 141-145):
add `"subnets": ["all"]` and `"do_aggregate_subnets": False` when absent,
never overwriting a present value. -/
def fillEntry (entry : List (String × MValue)) : List (String × MValue) :=
  let e1 := if (alookup entry "subnets").isSome then entry
    else entry ++ [("subnets", .list [.str "all"])]
  if (alookup e1 "do_aggregate_subnets").isSome then e1
  else e1 ++ [("do_aggregate_subnets", .bool false)]

/-- The `for netName in metadata["network_datasets"].keys()` loop of lines
141-145: each entry must itself be a dict (Python raises otherwise). -/
def fillNetworkDefaults : List (String × MValue) → Option (List (String × MValue))
  | [] => some []
  | (name, .dict entry) :: rest =>
    match fillNetworkDefaults rest with
    | some rest2 => some ((name, .dict (fillEntry entry)) :: rest2)
    | Option.none => Option.none
  | _ :: _ => Option.none

/-- Python `sub in s` for strings: substring containment over the
character list. -/
def listContainsSub (sub : List Char) : List Char → Bool
  | [] => sub.isEmpty
  | c :: cs => sub.isPrefixOf (c :: cs) || listContainsSub sub cs

def strContainsSub (sub s : String) : Bool := listContainsSub sub.data s.data

/-- Lines 134-169 of `validate_metadata`, after the `refers_to` handling:
fill the defaults (never overwriting), fill each `network_datasets` entry,
then run the assertions (missing/unwanted keys, `unique_id` equals the
experiment name, no expandable kwarg naming a metadata key, and — when not
permissive — the perturbation dataset is a ready dataset, every network
name exists (or is `dense`/`empty`/contains `"random"`), and the two
network entry fields are present, which the filling just guaranteed).
Failed assertions and Python type errors become `Except.error` (adjacent
assertions are merged into one error value; the claims only depend on
which inputs succeed). -/
def validateRest (experimentName : String) (md : List (String × MValue))
    (permissive : Bool) (readyPerturbationDatasets grnNetworkNames : List String) :
    Except String (List (String × MValue)) :=
  let md2 := mergeAbsent md get_default_metadata
  match alookup md2 "network_datasets" with
  | some (.dict nds) =>
    match fillNetworkDefaults nds with
    | Option.none => .error "AttributeError: network entry is not a dict"
    | some nds2 =>
      let md3 := setKey md2 "network_datasets" (.dict nds2)
      match validateChecks experimentName md3 nds2 permissive
        readyPerturbationDatasets grnNetworkNames with
      | Option.none => .ok md3
      | some err => .error err
  | some _ => .error "AttributeError: network_datasets has no keys()"
  | Option.none => .error "KeyError: network_datasets"
where
  /- The assertion sequence of lines 147-164, returning the first failing
  assertion's message (`none` when all pass). -/
  validateChecks (experimentName : String) (md3 nds2 : List (String × MValue))
      (permissive : Bool) (readyPerturbationDatasets grnNetworkNames : List String) :
      Option String :=
    if (get_required_keys.filter (fun k => (alookup md3 k).isNone)) ≠ [] then
      some "AssertionError: Metadata is missing some required keys"
    else if ((md3.map Prod.fst).filter
        (fun k => decide (k ∉ get_required_keys ++ get_optional_keys))) ≠ [] then
      some "AssertionError: Metadata has some unwanted keys"
    else if isStrEq (alookup md3 "unique_id") experimentName = false then
      some "AssertionError: Experiment is labeled right"
    else
      match alookup md3 "kwargs_to_expand" with
      | some (.list kte) =>
        if kte.any (fun v => match v with
            | .str k => (alookup md3 k).isSome
            | _ => false) then
          some "AssertionError: an expandable kwarg names a reserved metadata key"
        else if permissive = true then Option.none
        else
          match alookup md3 "perturbation_dataset" with
          | some (.str pd) =>
            if pd ∈ readyPerturbationDatasets then
              if nds2.all (fun kv =>
                  ((decide (kv.1 ∈ grnNetworkNames) || (kv.1 == "dense") ||
                    (kv.1 == "empty") || strContainsSub "random" kv.1)) &&
                  (match kv.2 with
                   | .dict e => (alookup e "subnets").isSome &&
                      (alookup e "do_aggregate_subnets").isSome
                   | _ => false)) then
                Option.none
              else some "AssertionError: Networks exist as named"
            else some "AssertionError: Cannot find perturbation data under that name"
          | _ => some "AssertionError: Cannot find perturbation data under that name"
      | some _ => some "TypeError: kwargs_to_expand is not iterable"
      | Option.none => some "KeyError: kwargs_to_expand"

/-- `validate_metadata` (experimenter.py lines 100-169). The metadata.json
files on disk are inputs: `metadata0` is the experiment's own file,
`experimentsOnDisk` maps an experiment name to its metadata.json (with
`none` for a missing file, which Python reports as FileNotFoundError).
`readyPerturbationDatasets` models the names in
`load_perturbations.load_perturbation_metadata()` with `is_ready == "yes"`;
`grnNetworkNames` models `load_networks.load_grn_metadata()["name"]`
(both external collections). Printing is I/O and not modelled. -/
def validate_metadata (experimentName : String)
    (metadata0 : List (String × MValue))
    (experimentsOnDisk : String → Option (List (String × MValue)))
    (permissive : Bool)
    (readyPerturbationDatasets grnNetworkNames : List String) :
    Except String (List (String × MValue)) :=
  if ! permissive && isFalsyPresent (alookup metadata0 "is_active") then
    .error "ValueError: This experiment is marked as inactive."
  else
    match alookup metadata0 "refers_to" with
    | some (.str rs) =>
      match experimentsOnDisk rs with
      | Option.none => .error "FileNotFoundError: metadata.json"
      | some other =>
        if isFalsyPresent (alookup other "is_active") then
          .error "AssertionError: Referring to an inactive experiment is not allowed."
        else
          validateRest experimentName (mergeAbsent metadata0 other) permissive
            readyPerturbationDatasets grnNetworkNames
    | some _ => .error "TypeError: refers_to is not a path component"
    | Option.none =>
      validateRest experimentName (setKey metadata0 "refers_to" MValue.null)
        permissive readyPerturbationDatasets grnNetworkNames

theorem fillEntry_preserves (entry : List (String × MValue)) (k : String) (v : MValue)
    (h : alookup entry k = some v) : alookup (fillEntry entry) k = some v := by
  unfold fillEntry
  simp only []
  by_cases h1 : (alookup entry "subnets").isSome
  · rw [if_pos h1]
    by_cases h2 : (alookup entry "do_aggregate_subnets").isSome
    · rw [if_pos h2]
      exact h
    · rw [if_neg h2, alookup_append, h]
  · rw [if_neg h1]
    have he1 : alookup (entry ++ [("subnets", MValue.list [MValue.str "all"])]) k =
        some v := by
      rw [alookup_append, h]
    by_cases h2 : (alookup (entry ++ [("subnets", MValue.list [MValue.str "all"])])
        "do_aggregate_subnets").isSome
    · rw [if_pos h2]
      exact he1
    · rw [if_neg h2, alookup_append, he1]

theorem fillEntry_subnets (entry : List (String × MValue)) :
    alookup (fillEntry entry) "subnets" =
      match alookup entry "subnets" with
      | some v => some v
      | Option.none => some (.list [.str "all"]) := by
  cases hs : alookup entry "subnets" with
  | some v => exact fillEntry_preserves entry "subnets" v hs
  | none =>
    unfold fillEntry
    simp only []
    have h1 : ¬ (alookup entry "subnets").isSome = true := by
      rw [hs]; simp
    rw [if_neg h1]
    have he1 : alookup (entry ++ [("subnets", MValue.list [MValue.str "all"])])
        "subnets" = some (.list [.str "all"]) := by
      rw [alookup_append, hs]
      rfl
    by_cases h2 : (alookup (entry ++ [("subnets", MValue.list [MValue.str "all"])])
        "do_aggregate_subnets").isSome = true
    · rw [if_pos h2]
      exact he1
    · rw [if_neg h2]
      rw [alookup_append, he1]

theorem fillEntry_doagg (entry : List (String × MValue)) :
    alookup (fillEntry entry) "do_aggregate_subnets" =
      match alookup entry "do_aggregate_subnets" with
      | some v => some v
      | Option.none => some (.bool false) := by
  cases hs : alookup entry "do_aggregate_subnets" with
  | some v => exact fillEntry_preserves entry "do_aggregate_subnets" v hs
  | none =>
    unfold fillEntry
    simp only []
    by_cases h1 : (alookup entry "subnets").isSome = true
    · rw [if_pos h1]
      have h2 : ¬ (alookup entry "do_aggregate_subnets").isSome = true := by
        rw [hs]; simp
      rw [if_neg h2]
      rw [alookup_append, hs]
      rfl
    · rw [if_neg h1]
      have he1 : alookup (entry ++ [("subnets", MValue.list [MValue.str "all"])])
          "do_aggregate_subnets" = Option.none := by
        rw [alookup_append, hs]
        rfl
      have h2 : ¬ (alookup (entry ++ [("subnets", MValue.list [MValue.str "all"])])
          "do_aggregate_subnets").isSome = true := by
        rw [he1]; simp
      rw [if_neg h2]
      rw [alookup_append, he1]
      rfl

theorem fillNetworkDefaults_mem (nds nds2 : List (String × MValue))
    (h : fillNetworkDefaults nds = some nds2) :
    ∀ kv ∈ nds2, ∃ name entry, kv = (name, MValue.dict (fillEntry entry)) ∧
      (name, MValue.dict entry) ∈ nds := by
  induction nds generalizing nds2 with
  | nil =>
    unfold fillNetworkDefaults at h
    rw [← Option.some.inj h]
    intro kv hkv
    cases hkv
  | cons kv0 rest ih =>
    obtain ⟨name0, v0⟩ := kv0
    cases v0 with
    | dict entry =>
      unfold fillNetworkDefaults at h
      cases hrest : fillNetworkDefaults rest with
      | none => rw [hrest] at h; cases h
      | some rest2 =>
        rw [hrest] at h
        rw [← Option.some.inj h]
        intro kv hkv
        rcases List.mem_cons.mp hkv with hh | hh
        · exact ⟨name0, entry, hh, List.mem_cons_self _ _⟩
        · obtain ⟨n, e, he, hm⟩ := ih rest2 hrest kv hh
          exact ⟨n, e, he, List.mem_cons_of_mem _ hm⟩
    | str s => cases h
    | num n => cases h
    | rat q => cases h
    | bool b => cases h
    | list xs => cases h
    | null => cases h

/-- Invert a successful `validateRest`: the returned metadata is exactly
the input merged with the defaults, with the (filled) network datasets
written back. -/
theorem validateRest_ok (ename : String) (md : List (String × MValue))
    (permissive : Bool) (ready grns : List String)
    (result : List (String × MValue))
    (hok : validateRest ename md permissive ready grns = .ok result) :
    ∃ nds nds2,
      alookup (mergeAbsent md get_default_metadata) "network_datasets" =
        some (.dict nds) ∧
      fillNetworkDefaults nds = some nds2 ∧
      result = setKey (mergeAbsent md get_default_metadata) "network_datasets"
        (.dict nds2) := by
  unfold validateRest at hok
  simp only [] at hok
  split at hok <;> try exact absurd hok (by simp)
  rename_i nds heq1
  split at hok <;> try exact absurd hok (by simp)
  rename_i nds2 heq2
  split at hok
  · exact ⟨nds, nds2, heq1, heq2, (Except.ok.inj hok).symm⟩
  · exact absurd hok (by simp)

theorem validateRest_props (ename : String) (md1 : List (String × MValue))
    (permissive : Bool) (ready grns : List String)
    (result : List (String × MValue))
    (hok : validateRest ename md1 permissive ready grns = .ok result) :
    (∀ kv ∈ get_default_metadata, (alookup result kv.1).isSome) ∧
    (∀ kv ∈ get_default_metadata, kv.1 ≠ "network_datasets" →
      alookup md1 kv.1 = Option.none → alookup result kv.1 = some kv.2) ∧
    (∀ k v, alookup md1 k = some v → k ≠ "network_datasets" →
      alookup result k = some v) ∧
    (∃ nds nds2, fillNetworkDefaults nds = some nds2 ∧
      alookup result "network_datasets" = some (.dict nds2) ∧
      ∀ kv ∈ nds2, ∃ name entry, kv = (name, MValue.dict (fillEntry entry)) ∧
        (name, MValue.dict entry) ∈ nds) := by
  obtain ⟨nds, nds2, heq1, heq2, hres⟩ :=
    validateRest_ok ename md1 permissive ready grns result hok
  have hnddef : (get_default_metadata.map Prod.fst).Nodup := by decide
  refine ⟨?_, ?_, ?_, ?_⟩
  · rintro ⟨k, v⟩ hkv
    by_cases hk : k = "network_datasets"
    · subst hk
      rw [hres, alookup_setKey_self]
      rfl
    · rw [hres, alookup_setKey_other _ _ _ _ hk]
      apply isSome_alookup_mergeAbsent_right
      rw [alookup_eq_of_mem_nodup get_default_metadata hnddef k v hkv]
      rfl
  · rintro ⟨k, v⟩ hkv hk habs
    rw [hres, alookup_setKey_other _ _ _ _ hk]
    exact alookup_mergeAbsent_of_none md1 get_default_metadata k v habs
      (alookup_eq_of_mem_nodup get_default_metadata hnddef k v hkv)
  · intro k v hv hk
    rw [hres, alookup_setKey_other _ _ _ _ hk]
    exact alookup_mergeAbsent_of_some md1 get_default_metadata k v hv
  · refine ⟨nds, nds2, heq2, ?_, fillNetworkDefaults_mem nds nds2 heq2⟩
    rw [hres, alookup_setKey_self]

/-- Claim C8: `validate_metadata` fills defaults without overwriting. On
every successful return: every key of `get_default_metadata` is present;
a key absent from the user metadata (and from any referred-to experiment's
metadata) holds its default value; a user-supplied key keeps its original
value (`network_datasets` excepted: its entries are the user's entries
with `subnets` defaulting to `["all"]` and `do_aggregate_subnets` to
`False`, never overwriting present fields, as the final two conjuncts
state exactly). -/
theorem claimC8 (experimentName : String) (metadata0 : List (String × MValue))
    (experimentsOnDisk : String → Option (List (String × MValue)))
    (permissive : Bool) (ready grns : List String)
    (result : List (String × MValue))
    (hok : validate_metadata experimentName metadata0 experimentsOnDisk permissive
      ready grns = .ok result) :
    (∀ kv ∈ get_default_metadata, (alookup result kv.1).isSome) ∧
    (∀ kv ∈ get_default_metadata, kv.1 ≠ "network_datasets" →
      alookup metadata0 kv.1 = Option.none →
      (∀ rs other, alookup metadata0 "refers_to" = some (.str rs) →
        experimentsOnDisk rs = some other → alookup other kv.1 = Option.none) →
      alookup result kv.1 = some kv.2) ∧
    (∀ k v, alookup metadata0 k = some v → k ≠ "network_datasets" →
      alookup result k = some v) ∧
    (∃ nds nds2, fillNetworkDefaults nds = some nds2 ∧
      alookup result "network_datasets" = some (.dict nds2) ∧
      ∀ kv ∈ nds2, ∃ name entry, kv = (name, MValue.dict (fillEntry entry)) ∧
        (name, MValue.dict entry) ∈ nds) ∧
    (∀ entry : List (String × MValue),
      (alookup (fillEntry entry) "subnets" =
        match alookup entry "subnets" with
        | some v => some v
        | Option.none => some (.list [.str "all"])) ∧
      (alookup (fillEntry entry) "do_aggregate_subnets" =
        match alookup entry "do_aggregate_subnets" with
        | some v => some v
        | Option.none => some (.bool false))) := by
  have hfill : ∀ entry : List (String × MValue),
      (alookup (fillEntry entry) "subnets" =
        match alookup entry "subnets" with
        | some v => some v
        | Option.none => some (.list [.str "all"])) ∧
      (alookup (fillEntry entry) "do_aggregate_subnets" =
        match alookup entry "do_aggregate_subnets" with
        | some v => some v
        | Option.none => some (.bool false)) :=
    fun entry => ⟨fillEntry_subnets entry, fillEntry_doagg entry⟩
  unfold validate_metadata at hok
  split at hok
  · exact absurd hok (by simp)
  split at hok <;> try exact absurd hok (by simp)
  · -- refers_to is a string: merge with the referred metadata
    rename_i rs hrt
    split at hok <;> try exact absurd hok (by simp)
    rename_i other hdisk
    split at hok
    · exact absurd hok (by simp)
    obtain ⟨p1, p2, p3, p4⟩ := validateRest_props experimentName
      (mergeAbsent metadata0 other) permissive ready grns result hok
    refine ⟨p1, ?_, ?_, p4, hfill⟩
    · rintro ⟨k, v⟩ hkv hk habs hother
      refine p2 (k, v) hkv hk ?_
      exact alookup_mergeAbsent_none metadata0 other k habs
        (hother rs other hrt hdisk)
    · intro k v hv hk
      exact p3 k v (alookup_mergeAbsent_of_some metadata0 other k v hv) hk
  · -- no refers_to: metadata["refers_to"] = None
    rename_i hrt
    obtain ⟨p1, p2, p3, p4⟩ := validateRest_props experimentName
      (setKey metadata0 "refers_to" MValue.null) permissive ready grns result hok
    refine ⟨p1, ?_, ?_, p4, hfill⟩
    · rintro ⟨k, v⟩ hkv hk habs _
      refine p2 (k, v) hkv hk ?_
      have hkr : k ≠ "refers_to" := by
        intro hc
        have hmem : k ∈ get_default_metadata.map Prod.fst :=
          List.mem_map.mpr ⟨(k, v), hkv, rfl⟩
        rw [hc] at hmem
        exact absurd hmem (by decide)
      rw [alookup_setKey_other _ _ _ _ hkr]
      exact habs
    · intro k v hv hk
      have hkr : k ≠ "refers_to" := by
        intro hc
        rw [hc, hrt] at hv
        cases hv
      refine p3 k v ?_ hk
      rw [alookup_setKey_other _ _ _ _ hkr]
      exact hv

/-- A concrete metadata.json for the witness: exactly the required keys that
have no default, with no `refers_to`. -/
def c8mdW : List (String × MValue) :=
  [("unique_id", .str "exp1"), ("nickname", .str "n"), ("readme", .str "r"),
   ("question", .str "q"), ("is_active", .bool true),
   ("factor_varied", .str "network_datasets"), ("color_by", .null),
   ("facet_by", .null), ("perturbation_dataset", .str "d")]

/-- The metadata `validate_metadata` returns for `c8mdW`: `refers_to` set to
null, defaults merged in, and the default network entry filled. -/
def c8resW : List (String × MValue) :=
  setKey (mergeAbsent (setKey c8mdW "refers_to" MValue.null) get_default_metadata)
    "network_datasets"
    (MValue.dict [("dense", MValue.dict
      [("subnets", MValue.list [MValue.str "all"]),
       ("do_aggregate_subnets", MValue.bool false)])])

theorem claimC8_witness :
    validate_metadata "exp1" c8mdW (fun _ => Option.none) true [] [] =
      Except.ok c8resW ∧
    ((∀ kv ∈ get_default_metadata, (alookup c8resW kv.1).isSome) ∧
     (∀ k v, alookup c8mdW k = some v → k ≠ "network_datasets" →
       alookup c8resW k = some v)) :=
  ⟨rfl,
   (claimC8 "exp1" c8mdW (fun _ => Option.none) true [] [] c8resW rfl).1,
   (claimC8 "exp1" c8mdW (fun _ => Option.none) true [] [] c8resW rfl).2.2.1⟩


end PerturbationBenchmarking
